import Mathlib

/-!
# Verification of the dataset readiness analyzer

A shallow embedding of `src/server/app/services/dataset_analyzer.py`
(class `DatasetAnalyzer`), together with theorems settling the frozen
claims about it.

Modelling conventions:
* Python floats are modelled as `ℚ` (all arithmetic in the analyzer is
  exact rational arithmetic except `sqrt` inside the class-balance score).
* `math.sqrt` / `np.std`'s square root is an abstract parameter
  `sq : ℚ → ℚ` of the embedding; theorems that need it assume only
  `∀ q, 0 ≤ sq q`, which the real square root satisfies.  A concrete
  computable instance `ratSqrt` is provided for witnesses.
* File contents are abstract `Bytes` (a `String`); `hashlib.md5` is
  modelled as the identity on contents (an injective hash), so "same
  hash" means "same bytes".
* The PIL decoder is an abstract parameter
  `decode : Bytes → Option (ℚ × ℚ)`: `none` models a decode failure
  (corrupt file), `some (w, h)` the decoded pixel dimensions.  A
  missing file is `Img.file = none`.
* The stores `DatasetService` / `AnnotationService` (not part of the
  sources, consumed as external collaborators) are modelled as data:
  the dataset record itself, and an annotation lookup
  `anns : String → Option AnnRec` keyed by image id.
* The filesystem-dependent structure validation
  (`_validate_structure`, `_validate_yolo_label_files`) only feeds the
  `structure_valid` / `structure_issues` fields, which no claim is
  about; its results are abstracted as the two issue lists in `FS`.
-/

/-- Abstract file contents; the md5 hash key is the contents itself. -/
abbrev Bytes := String

/-- One bounding box of an annotation (`boxes` entries in the store):
absolute pixel coordinates of the top-left corner plus width/height,
a class id and a denormalized class name. -/
structure Box where
  x : ℚ
  y : ℚ
  width : ℚ
  height : ℚ
  class_id : ℤ
  class_name : String
deriving DecidableEq

/-- An annotation record as returned by `AnnotationService.get_annotation`. -/
structure AnnRec where
  width : ℚ
  height : ℚ
  boxes : List Box
deriving DecidableEq

/-- An image record as returned by `DatasetService.get_dataset_images`.
`file = none` models a path that does not exist on disk. -/
structure Img where
  id : String
  filename : String
  file : Option Bytes
  annotated : Bool
  split : Option String
deriving DecidableEq

/-- A dataset record as returned by `DatasetService.get_dataset`. -/
structure Dataset where
  id : String
  name : String
  classes : List String
  images : List Img
deriving DecidableEq

/-- Results of the filesystem-dependent structure validation, abstracted:
`structIssues` is what `_validate_structure` reports and `labelIssues`
what `_validate_yolo_label_files` reports. -/
structure FS where
  structIssues : List String
  labelIssues : List String

/-- The environment of external collaborators of `analyze_dataset`:
square root, image decoder, annotation store, filesystem checks. -/
structure Env where
  sq : ℚ → ℚ
  decode : Bytes → Option (ℚ × ℚ)
  anns : String → Option AnnRec
  fs : FS

/-- A computable rational square-root approximation (exact on perfect
squares), used to instantiate `Env.sq` in concrete witnesses. -/
def ratSqrt (q : ℚ) : ℚ := (Nat.sqrt (q.num.toNat * q.den) : ℚ) / (q.den : ℚ)

theorem ratSqrt_nonneg (q : ℚ) : 0 ≤ ratSqrt q := by
  unfold ratSqrt
  positivity

/-! ## Counter and hash-table helpers (Python `Counter` / `dict`) -/

/-- Increment the count of `k` in an insertion-ordered counter
(Python `Counter` / plain `dict` semantics: new keys are appended). -/
def incr : List (String × ℕ) → String → List (String × ℕ)
  | [], k => [(k, 1)]
  | (a, n) :: rest, k =>
    if a = k then (a, n + 1) :: rest else (a, n) :: incr rest k

/-- Append filename `f` to the entry of hash `b` in the insertion-ordered
hash table (`image_hashes` dict): existing key gets the filename appended,
a new key is appended at the end with a singleton list. -/
def addHash : List (Bytes × List String) → Bytes → String → List (Bytes × List String)
  | [], b, f => [(b, [f])]
  | (a, fs) :: rest, b, f =>
    if a = b then (a, fs ++ [f]) :: rest else (a, fs) :: addHash rest b f

/-- Look up the filename list of hash `b` (empty if absent). -/
def lookupD : List (Bytes × List String) → Bytes → List String
  | [], _ => []
  | (a, fs) :: rest, b => if a = b then fs else lookupD rest b

/-! ## Pure score functions of `DatasetAnalyzer` -/

/-- `DatasetAnalyzer._calculate_class_balance`, parametrized by the
square root `sq`.  `class_frequency` is the insertion-ordered
class-name → count map built by the scan. -/
def calcClassBalance (sq : ℚ → ℚ) (class_frequency : List (String × ℕ)) : ℚ :=
  if class_frequency = [] then 0
  else
    let counts : List ℚ := class_frequency.map (fun p => (p.2 : ℚ))
    if counts.length = 1 then 1
    else
      let mean_count := counts.sum / (counts.length : ℚ)
      if mean_count = 0 then 0
      else
        let variance := (counts.map (fun x => (x - mean_count) ^ 2)).sum / (counts.length : ℚ)
        let cv := sq variance / mean_count
        max 0 (1 - min cv 1)

/-- Object-size buckets (`object_size_distribution` dict). -/
structure SizeDist where
  tiny : ℕ
  small : ℕ
  medium : ℕ
  large : ℕ
deriving DecidableEq

/-- `DatasetAnalyzer._categorize_sizes` with the fixed thresholds
`TINY_THRESHOLD = 0.01`, `SMALL_THRESHOLD = 0.05`, `MEDIUM_THRESHOLD = 0.2`. -/
def categorizeSizes (sizes : List ℚ) : SizeDist :=
  sizes.foldl
    (fun d s =>
      if s < 1 / 100 then { d with tiny := d.tiny + 1 }
      else if s < 5 / 100 then { d with small := d.small + 1 }
      else if s < 2 / 10 then { d with medium := d.medium + 1 }
      else { d with large := d.large + 1 })
    ⟨0, 0, 0, 0⟩

/-- Aspect-ratio buckets (`aspect_ratio_distribution` dict). -/
structure AspectDist where
  portrait : ℕ
  square : ℕ
  landscape : ℕ
deriving DecidableEq

/-- `DatasetAnalyzer._categorize_aspect_ratios`. -/
def categorizeAspects (ratios : List ℚ) : AspectDist :=
  ratios.foldl
    (fun d r =>
      if r < 8 / 10 then { d with portrait := d.portrait + 1 }
      else if r > 12 / 10 then { d with landscape := d.landscape + 1 }
      else { d with square := d.square + 1 })
    ⟨0, 0, 0⟩

/-- `img.get("split") or "none"`: Python `or` maps both a missing split
and an empty-string split to `"none"`. -/
def splitOrNone (i : Img) : String :=
  match i.split with
  | none => "none"
  | some s => if s = "" then "none" else s

/-- The splits collected for one hash entry's filename list in
`_analyze_splits`: the split of every annotated image whose filename is
in the list. -/
def splitsFor (annotated : List Img) (files : List String) : List String :=
  (annotated.filter (fun i => decide (i.filename ∈ files))).map splitOrNone

/-- Result triple of `_analyze_splits`. -/
structure SplitRes where
  dist : List (String × ℕ)
  ratios : List (String × ℚ)
  leak : Bool

/-- `DatasetAnalyzer._analyze_splits` over the annotated images and the
content-hash table. -/
def analyzeSplits (annotated : List Img) (hashes : List (Bytes × List String)) : SplitRes :=
  let dist := annotated.foldl (fun m i => incr m (splitOrNone i)) []
  if annotated.length = 0 then ⟨dist, [], false⟩
  else
    let ratios := dist.map (fun p => (p.1, (p.2 : ℚ) / (annotated.length : ℚ)))
    let leak := hashes.any (fun p =>
      decide (1 < p.2.length) && decide (1 < (splitsFor annotated p.2).dedup.length))
    ⟨dist, ratios, leak⟩

/-- `DatasetAnalyzer._calculate_label_accuracy`. -/
def calcLabelAccuracy (images : List Img) (mismatches corrupt : List String)
    (invalid_box_count empty_count out_of_bounds_count : ℕ) : ℚ :=
  if images = [] then 0
  else
    let total : ℚ := images.length
    let errors : ℚ :=
      (mismatches.length : ℚ) * 1 + (corrupt.length : ℚ) * 1 +
        (invalid_box_count : ℚ) * (5 / 10) + (empty_count : ℚ) * (3 / 10) +
        (out_of_bounds_count : ℚ) * (8 / 10)
    max 0 (1 - errors / total)

/-- The axis-aligned overlap test of `_calculate_iou_consistency`:
boxes 1 and 2 overlap unless one is fully to the left/right/above/below
the other. -/
def overlaps (b1 b2 : Box) : Prop :=
  ¬(b1.x + b1.width ≤ b2.x ∨ b2.x + b2.width ≤ b1.x ∨
    b1.y + b1.height ≤ b2.y ∨ b2.y + b2.height ≤ b1.y)

instance (b1 b2 : Box) : Decidable (overlaps b1 b2) := by
  unfold overlaps; infer_instance

/-- The well-formedness check of `_calculate_iou_consistency`
(`width > 0 and height > 0 and x >= 0 and y >= 0`). -/
def wellFormed (b : Box) : Prop :=
  0 < b.width ∧ 0 < b.height ∧ 0 ≤ b.x ∧ 0 ≤ b.y

instance (b : Box) : Decidable (wellFormed b) := by
  unfold wellFormed; infer_instance

/-- The pairwise loop of `_calculate_iou_consistency`: for each `i < j`
with both boxes of positive dimensions, count the pair and whether the
two boxes overlap.  Returns `(total_pairs, overlapping_pairs)`. -/
def pairLoop : List Box → ℕ × ℕ
  | [] => (0, 0)
  | b :: rest =>
    let tail := pairLoop rest
    if b.width ≤ 0 ∨ b.height ≤ 0 then tail
    else
      let posRest := rest.filter (fun c => decide (¬(c.width ≤ 0 ∨ c.height ≤ 0)))
      (tail.1 + posRest.length, tail.2 + (posRest.filter (fun c => decide (overlaps b c))).length)

/-- `DatasetAnalyzer._calculate_iou_consistency`. -/
def calcIou (annotations : List Box) : ℚ :=
  if annotations.length < 2 then 1
  else
    let valid_boxes := (annotations.filter (fun b => decide (wellFormed b))).length
    let pairs := pairLoop annotations
    let valid_ratio : ℚ := (valid_boxes : ℚ) / (annotations.length : ℚ)
    let overlap_penalty : ℚ :=
      if 0 < pairs.1 then
        let overlap_ratio : ℚ := (pairs.2 : ℚ) / (pairs.1 : ℚ)
        if overlap_ratio > 3 / 10 then (overlap_ratio - 3 / 10) * (5 / 10) else 0
      else 0
    max 0 (valid_ratio - overlap_penalty)

/-- Result of `_recommend_training_config`. -/
structure TrainConfig where
  image_size : ℕ
  batch_size : ℕ
  epochs : ℕ
deriving DecidableEq

/-- `DatasetAnalyzer._recommend_training_config`. -/
def recommendConfig (num_images : ℕ) (_num_classes : ℕ) (_balance_score : ℚ)
    (size_dist : SizeDist) : TrainConfig :=
  let total_objects := size_dist.tiny + size_dist.small + size_dist.medium + size_dist.large
  let tiny_ratio : ℚ := if 0 < total_objects then (size_dist.tiny : ℚ) / (total_objects : ℚ) else 0
  let img_size := if tiny_ratio > 3 / 10 then 1280 else if tiny_ratio > 1 / 10 then 640 else 640
  let batch_size :=
    if num_images < 100 then 8 else if num_images < 500 then 16
    else if num_images < 2000 then 32 else 64
  let epochs :=
    if num_images < 100 then 200 else if num_images < 500 then 150
    else if num_images < 2000 then 100 else 50
  ⟨img_size, batch_size, epochs⟩

/-- Result of `_recommend_augmentation`. -/
structure AugRec where
  mosaic : Bool
  mixup : ℚ
  hsv_h : ℚ
  hsv_s : ℚ
  hsv_v : ℚ
  flip : ℚ
  scale : ℚ
  degrees : ℚ
  translate : ℚ
  blur : ℚ
  noise : ℚ
deriving DecidableEq

/-- `DatasetAnalyzer._recommend_augmentation`. -/
def recommendAug (balance_score : ℚ) (size_dist : SizeDist) (num_images : ℕ) : AugRec :=
  let total_objects := size_dist.tiny + size_dist.small + size_dist.medium + size_dist.large
  let tiny_ratio : ℚ := if 0 < total_objects then (size_dist.tiny : ℚ) / (total_objects : ℚ) else 0
  { mosaic := num_images < 1000
    mixup := if balance_score < 7 / 10 then 1 / 10 else 0
    hsv_h := 15 / 1000
    hsv_s := 7 / 10
    hsv_v := 4 / 10
    flip := 5 / 10
    scale := if tiny_ratio < 2 / 10 then 5 / 10 else 3 / 10
    degrees := if tiny_ratio > 1 / 10 then 10 else 0
    translate := 1 / 10
    blur := 0
    noise := 0 }

/-- `DatasetAnalyzer._calculate_quality_score`.  Note that at its call
site `total_images` receives `len(annotated_images)`. -/
def calcQuality (balance_score label_accuracy iou_consistency : ℚ)
    (corrupt_count duplicate_count mismatch_count total_images : ℕ)
    (data_leakage : Bool)
    (invalid_box_count empty_count out_of_bounds_count invalid_class_count : ℕ) : ℚ :=
  if total_images = 0 then 0
  else
    let base_score :=
      (balance_score * (25 / 100) + label_accuracy * (35 / 100) +
        iou_consistency * (25 / 100) +
        (if invalid_class_count = 0 then 1 else 5 / 10) * (15 / 100)) * 100
    let critical_errors : ℚ := (corrupt_count : ℚ) + (mismatch_count : ℚ) + (out_of_bounds_count : ℚ)
    let moderate_errors : ℚ := (duplicate_count : ℚ) + (invalid_box_count : ℚ)
    let minor_errors : ℚ := (empty_count : ℚ) + (invalid_class_count : ℚ)
    let error_penalty :=
      (critical_errors / (total_images : ℚ)) * 40 +
        (moderate_errors / (total_images : ℚ)) * 20 +
        (minor_errors / (total_images : ℚ)) * 10
    let leakage_penalty : ℚ := if data_leakage then 25 else 0
    max 0 (base_score - error_penalty - leakage_penalty)

/-- Smallest per-class count (`min(class_frequency.values())`, 0 when empty). -/
def minCount : List ℕ → ℕ
  | [] => 0
  | [n] => n
  | n :: rest => min n (minCount rest)

/-- Assoc-list lookup for the split-ratio map. -/
def ratioLookup : List (String × ℚ) → String → Option ℚ
  | [], _ => none
  | (a, q) :: rest, k => if a = k then some q else ratioLookup rest k

/-- `DatasetAnalyzer._generate_warnings_recommendations`; the result is
`(warnings, recommendations)`. -/
def genWarnings (class_frequency : List (String × ℕ)) (balance_score : ℚ)
    (size_dist : SizeDist) (num_images corrupt_count duplicate_count mismatch_count : ℕ)
    (split_ratios : List (String × ℚ)) (data_leakage : Bool) (quality_score : ℚ)
    (invalid_box_count empty_count out_of_bounds_count invalid_class_count : ℕ) :
    List String × List String :=
  let w0 : List String := []
  let r0 : List String := []
  let (w1, r1) :=
    if balance_score < 5 / 10 then
      (w0 ++ ["Severe class imbalance detected"],
       r0 ++ ["Consider using class weights or oversampling rare classes"])
    else if balance_score < 7 / 10 then
      (w0 ++ ["Moderate class imbalance detected"],
       r0 ++ ["Consider data augmentation for minority classes"])
    else (w0, r0)
  let min_per_class := if class_frequency = [] then 0 else minCount (class_frequency.map (fun p => p.2))
  let (w2, r2) :=
    if min_per_class < 10 then
      (w1 ++ ["Some classes have very few examples (< 10)"],
       r1 ++ ["Collect more data for underrepresented classes"])
    else if min_per_class < 50 then
      (w1 ++ ["Some classes have limited examples (< 50)"],
       r1 ++ ["Consider data augmentation or transfer learning"])
    else (w1, r1)
  let (w3, r3) :=
    if num_images < 100 then
      (w2 ++ ["Small dataset size may lead to overfitting"],
       r2 ++ ["Use aggressive data augmentation and consider transfer learning"])
    else (w2, r2)
  let total_objects := size_dist.tiny + size_dist.small + size_dist.medium + size_dist.large
  let (w4, r4) :=
    if 0 < total_objects ∧ (size_dist.tiny : ℚ) / (total_objects : ℚ) > 3 / 10 then
      (w3 ++ ["High proportion of tiny objects detected"],
       r3 ++ ["Use higher image resolution (1280px) and consider mosaic augmentation"])
    else (w3, r3)
  let (w5, r5) :=
    if 0 < corrupt_count then
      (w4 ++ [toString corrupt_count ++ " corrupt images detected"],
       r4 ++ ["Remove or fix corrupt images before training"])
    else (w4, r4)
  let (w6, r6) :=
    if 0 < duplicate_count then
      (w5 ++ [toString duplicate_count ++ " duplicate images detected"],
       r5 ++ ["Remove duplicate images to prevent data leakage"])
    else (w5, r5)
  let (w7, r7) :=
    if 0 < mismatch_count then
      (w6 ++ [toString mismatch_count ++ " label mismatches detected"],
       r6 ++ ["Fix label mismatches (annotation dimensions don't match image)"])
    else (w6, r6)
  let (w8, r8) :=
    if 0 < invalid_box_count then
      (w7 ++ [toString invalid_box_count ++ " invalid bounding boxes detected"],
       r7 ++ ["Fix invalid bounding boxes (zero or negative dimensions)"])
    else (w7, r7)
  let (w9, r9) :=
    if 0 < empty_count then
      (w8 ++ [toString empty_count ++ " images with no annotations detected"],
       r8 ++ ["Remove unannotated images or add annotations before training"])
    else (w8, r8)
  let (w10, r10) :=
    if 0 < out_of_bounds_count then
      (w9 ++ [toString out_of_bounds_count ++ " bounding boxes extend beyond image boundaries"],
       r9 ++ ["Fix out-of-bounds boxes - they will cause training errors"])
    else (w9, r9)
  let (w11, r11) :=
    if 0 < invalid_class_count then
      (w10 ++ [toString invalid_class_count ++ " invalid class IDs detected"],
       r10 ++ ["Fix class IDs to match dataset class list"])
    else (w10, r10)
  let (w12, r12) :=
    match ratioLookup split_ratios "train" with
    | some tr =>
      if tr < 7 / 10 then
        (w11 ++ ["Training set is too small (< 70%)"],
         r11 ++ ["Increase training set size or use cross-validation"])
      else (w11, r11)
    | none => (w11, r11)
  let (w13, r13) :=
    if data_leakage then
      (w12 ++ ["Data leakage detected - same images in multiple splits"],
       r12 ++ ["Fix split assignments to prevent data leakage"])
    else (w12, r12)
  if quality_score < 50 then
    (w13 ++ ["Low overall dataset quality"],
     r13 ++ ["Address quality issues before training for best results"])
  else if quality_score < 70 then
    (w13 ++ ["Moderate dataset quality"],
     r13 ++ ["Consider improving dataset quality for better model performance"])
  else (w13, r13)

/-! ## The per-image scan of `analyze_dataset` -/

/-- The mutable accumulators of the scan loop in `analyze_dataset`:
`all_annotations`, `class_counts`, `object_sizes`, `aspect_ratios`,
`image_hashes`, and the defect lists. -/
structure ScanSt where
  anns : List Box
  counts : List (String × ℕ)
  sizes : List ℚ
  aspects : List ℚ
  hashes : List (Bytes × List String)
  corrupt : List String
  mism : List String
  invalid : List Box
  empty : List String
  icls : List String
  oob : List String
deriving DecidableEq

/-- The empty scan state. -/
def initSt : ScanSt := ⟨[], [], [], [], [], [], [], [], [], [], []⟩

/-- The out-of-bounds check of the box loop:
`box_x < 0 or box_y < 0 or box_x_max > img_width or box_y_max > img_height`. -/
def oobPred (W H : ℚ) (b : Box) : Prop :=
  b.x < 0 ∨ b.y < 0 ∨ W < b.x + b.width ∨ H < b.y + b.height

instance (W H : ℚ) (b : Box) : Decidable (oobPred W H b) := by
  unfold oobPred; infer_instance

/-- The non-positive-dimension check of the box loop:
`box_width <= 0 or box_height <= 0`. -/
def nonposPred (b : Box) : Prop := b.width ≤ 0 ∨ b.height ≤ 0

instance (b : Box) : Decidable (nonposPred b) := by
  unfold nonposPred; infer_instance

/-- A box passes both the bounds check and the positivity check of the
scan loop (and hence reaches `all_annotations`). -/
def validBox (W H : ℚ) (b : Box) : Prop := ¬oobPred W H b ∧ ¬nonposPred b

instance (W H : ℚ) (b : Box) : Decidable (validBox W H b) := by
  unfold validBox; infer_instance

/-- Message recorded in `invalid_class_ids` for a class name missing
from the dataset classes. -/
def iclsNameMsg (fn nm : String) : String :=
  fn ++ ": class '" ++ nm ++ "' not in dataset"

/-- Message recorded in `invalid_class_ids` for a class id out of range. -/
def iclsIdMsg (fn : String) (cid : ℤ) : String :=
  fn ++ ": invalid class_id " ++ toString cid

/-- Message recorded in `boxes_out_of_bounds`. -/
def oobMsg (fn : String) (b : Box) : String :=
  fn ++ ": box (" ++ toString b.x ++ ", " ++ toString b.y ++ ", " ++
    toString b.width ++ ", " ++ toString b.height ++ ") out of bounds"

/-- The `invalid_class_ids` entries one box produces (both checks are
independent and non-fatal). -/
def iclsOf (fn : String) (cls : List String) (b : Box) : List String :=
  (if b.class_name ≠ "" ∧ b.class_name ∉ cls then [iclsNameMsg fn b.class_name] else []) ++
    (if b.class_id < 0 ∨ (cls.length : ℤ) ≤ b.class_id then [iclsIdMsg fn b.class_id] else [])

/-- The body of the box loop in `analyze_dataset`: class validation,
bounds check (`continue`), positivity check (`continue`), then the
statistics updates for a valid box. -/
def processBox (fn : String) (cls : List String) (W H : ℚ) (st : ScanSt) (b : Box) : ScanSt :=
  let st := { st with icls := st.icls ++ iclsOf fn cls b }
  if oobPred W H b then
    { st with oob := st.oob ++ [oobMsg fn b], invalid := st.invalid ++ [b] }
  else if nonposPred b then
    { st with invalid := st.invalid ++ [b] }
  else
    let st := { st with anns := st.anns ++ [b] }
    let st :=
      if b.class_name ≠ "" then { st with counts := incr st.counts b.class_name } else st
    if 0 < W * H then
      let st := { st with sizes := st.sizes ++ [b.width * b.height / (W * H)] }
      if 0 < b.width ∧ 0 < b.height then
        { st with aspects := st.aspects ++ [b.width / b.height] }
      else st
    else st

/-- The body of the image loop in `analyze_dataset`: annotation lookup
(`continue` into `empty_annotations` when null), file-existence check
(`continue` into `label_mismatches` when missing), decode (`continue`
into `corrupt_images` on failure), hash registration, dimension
mismatch flagging (no `continue`), empty-boxes flagging, box loop. -/
def scanImage (env : Env) (cls : List String) (st : ScanSt) (img : Img) : ScanSt :=
  match env.anns img.id with
  | none => { st with empty := st.empty ++ [img.filename] }
  | some ann =>
    match img.file with
    | none => { st with mism := st.mism ++ [img.filename] }
    | some bs =>
      match env.decode bs with
      | none => { st with corrupt := st.corrupt ++ [img.filename] }
      | some wh =>
        let st := { st with hashes := addHash st.hashes bs img.filename }
        let st :=
          if ann.width ≠ wh.1 ∨ ann.height ≠ wh.2 then
            { st with mism := st.mism ++ [img.filename] }
          else st
        let st :=
          if ann.boxes = [] then { st with empty := st.empty ++ [img.filename] } else st
        ann.boxes.foldl (processBox img.filename cls ann.width ann.height) st

/-- The whole scan loop over the annotated images. -/
def scanImages (env : Env) (cls : List String) (imgs : List Img) : ScanSt :=
  imgs.foldl (scanImage env cls) initSt

/-! ## The analysis result and `analyze_dataset` -/

/-- The `DatasetAnalysis` dataclass. -/
structure DatasetAnalysis where
  dataset_id : String
  dataset_name : String
  total_images : ℕ
  annotated_images : ℕ
  total_annotations : ℕ
  classes : List String
  class_frequency : List (String × ℕ)
  class_balance_score : ℚ
  object_size_distribution : SizeDist
  aspect_ratio_distribution : AspectDist
  avg_objects_per_image : ℚ
  structure_valid : Bool
  structure_issues : List String
  label_accuracy_score : ℚ
  iou_consistency_score : ℚ
  duplicate_images : List String
  corrupt_images : List String
  label_mismatches : List String
  invalid_boxes : List String
  empty_annotations : List String
  invalid_class_ids : List String
  boxes_out_of_bounds : List String
  split_distribution : List (String × ℕ)
  split_ratios : List (String × ℚ)
  data_leakage_detected : Bool
  recommended_image_size : ℕ
  recommended_batch_size : ℕ
  recommended_epochs : ℕ
  augmentation_recommendations : AugRec
  overall_quality_score : ℚ
  warnings : List String
  recommendations : List String

/-- `DatasetAnalyzer.analyze_dataset` for an existing dataset `ds`
(the dataset-not-found `ValueError` aborts before any of this). -/
def analyzeDataset (env : Env) (ds : Dataset) : DatasetAnalysis :=
  let images := ds.images
  let annotated := images.filter (fun i => i.annotated)
  let st := scanImages env ds.classes annotated
  let class_frequency := st.counts
  let class_balance_score := calcClassBalance env.sq class_frequency
  let size_dist := categorizeSizes st.sizes
  let aspect_dist := categorizeAspects st.aspects
  let duplicate_filenames :=
    ((st.hashes.filter (fun p => decide (1 < p.2.length))).map (fun p => p.2.drop 1)).flatten
  let structure_valid0 := env.fs.structIssues.isEmpty
  let structure_issues := env.fs.structIssues ++ env.fs.labelIssues
  let structure_valid := structure_valid0 && env.fs.labelIssues.isEmpty
  let sp := analyzeSplits annotated st.hashes
  let label_accuracy :=
    calcLabelAccuracy annotated st.mism st.corrupt st.invalid.length st.empty.length st.oob.length
  let iou_consistency := calcIou st.anns
  let cfg := recommendConfig annotated.length class_frequency.length class_balance_score size_dist
  let aug := recommendAug class_balance_score size_dist annotated.length
  let quality :=
    calcQuality class_balance_score label_accuracy iou_consistency st.corrupt.length
      duplicate_filenames.length st.mism.length annotated.length sp.leak st.invalid.length
      st.empty.length st.oob.length st.icls.length
  let wr :=
    genWarnings class_frequency class_balance_score size_dist annotated.length st.corrupt.length
      duplicate_filenames.length st.mism.length sp.ratios sp.leak quality st.invalid.length
      st.empty.length st.oob.length st.icls.length
  { dataset_id := ds.id
    dataset_name := ds.name
    total_images := images.length
    annotated_images := annotated.length
    total_annotations := st.anns.length
    classes := ds.classes
    class_frequency := class_frequency
    class_balance_score := class_balance_score
    object_size_distribution := size_dist
    aspect_ratio_distribution := aspect_dist
    avg_objects_per_image :=
      if annotated.length = 0 then 0 else (st.anns.length : ℚ) / (annotated.length : ℚ)
    structure_valid := structure_valid
    structure_issues := structure_issues
    label_accuracy_score := label_accuracy
    iou_consistency_score := iou_consistency
    duplicate_images := duplicate_filenames
    corrupt_images := st.corrupt
    label_mismatches := st.mism
    invalid_boxes := (List.range st.invalid.length).map (fun i => "Box " ++ toString (i + 1))
    empty_annotations := st.empty
    invalid_class_ids := st.icls
    boxes_out_of_bounds := st.oob
    split_distribution := sp.dist
    split_ratios := sp.ratios
    data_leakage_detected := sp.leak
    recommended_image_size := cfg.image_size
    recommended_batch_size := cfg.batch_size
    recommended_epochs := cfg.epochs
    augmentation_recommendations := aug
    overall_quality_score := quality
    warnings := wr.1
    recommendations := wr.2 }

/-! ## Decomposition of the scan into per-image contributions

The scan state only grows: every image (and every box) contributes a
fixed batch of list appends, counter increments and hash insertions,
independent of the state it is applied to.  `Contrib` packages one such
batch; `Contrib.merge` applies it to a state.  This lets every field of
the final scan state be described as a flat concatenation over the
annotated images. -/

/-- One batch of scan-state updates. -/
structure Contrib where
  anns : List Box
  names : List String
  sizes : List ℚ
  aspects : List ℚ
  hashIns : List (Bytes × String)
  corrupt : List String
  mism : List String
  invalid : List Box
  empty : List String
  icls : List String
  oob : List String

/-- The trivial contribution. -/
def emptyC : Contrib := ⟨[], [], [], [], [], [], [], [], [], [], []⟩

/-- Sequencing of two contributions. -/
def Contrib.app (c d : Contrib) : Contrib :=
  ⟨c.anns ++ d.anns, c.names ++ d.names, c.sizes ++ d.sizes, c.aspects ++ d.aspects,
    c.hashIns ++ d.hashIns, c.corrupt ++ d.corrupt, c.mism ++ d.mism,
    c.invalid ++ d.invalid, c.empty ++ d.empty, c.icls ++ d.icls, c.oob ++ d.oob⟩

/-- Applying a contribution to a scan state. -/
def Contrib.merge (st : ScanSt) (c : Contrib) : ScanSt :=
  { anns := st.anns ++ c.anns
    counts := c.names.foldl incr st.counts
    sizes := st.sizes ++ c.sizes
    aspects := st.aspects ++ c.aspects
    hashes := c.hashIns.foldl (fun h p => addHash h p.1 p.2) st.hashes
    corrupt := st.corrupt ++ c.corrupt
    mism := st.mism ++ c.mism
    invalid := st.invalid ++ c.invalid
    empty := st.empty ++ c.empty
    icls := st.icls ++ c.icls
    oob := st.oob ++ c.oob }

theorem merge_emptyC (st : ScanSt) : Contrib.merge st emptyC = st := by
  cases st; simp [Contrib.merge, emptyC]

theorem merge_app (st : ScanSt) (c d : Contrib) :
    Contrib.merge st (c.app d) = Contrib.merge (Contrib.merge st c) d := by
  cases st; simp [Contrib.merge, Contrib.app, List.foldl_append]

/-- Concatenation of a list of contributions. -/
def concatC (cs : List Contrib) : Contrib := cs.foldr Contrib.app emptyC

theorem foldl_merge {α : Type} (f : α → Contrib) (l : List α) (st : ScanSt) :
    l.foldl (fun s a => Contrib.merge s (f a)) st = Contrib.merge st (concatC (l.map f)) := by
  induction l generalizing st with
  | nil => simp [concatC, merge_emptyC]
  | cons a l ih => simp [concatC, merge_app, ih]

/-- The contribution of one box of one surviving image, mirroring the
branches of `processBox`. -/
def boxContrib (fn : String) (cls : List String) (W H : ℚ) (b : Box) : Contrib :=
  if oobPred W H b then
    { emptyC with icls := iclsOf fn cls b, oob := [oobMsg fn b], invalid := [b] }
  else if nonposPred b then
    { emptyC with icls := iclsOf fn cls b, invalid := [b] }
  else
    { emptyC with
      icls := iclsOf fn cls b
      anns := [b]
      names := if b.class_name ≠ "" then [b.class_name] else []
      sizes := if 0 < W * H then [b.width * b.height / (W * H)] else []
      aspects :=
        if 0 < W * H then
          if 0 < b.width ∧ 0 < b.height then [b.width / b.height] else []
        else [] }

theorem processBox_eq (fn : String) (cls : List String) (W H : ℚ) (st : ScanSt) (b : Box) :
    processBox fn cls W H st b = Contrib.merge st (boxContrib fn cls W H b) := by
  cases st
  unfold processBox boxContrib
  split_ifs <;> simp_all [Contrib.merge, emptyC, incr]

/-- The contribution of one annotated image, mirroring the branches of
`scanImage`. -/
def imgContrib (env : Env) (cls : List String) (img : Img) : Contrib :=
  match env.anns img.id with
  | none => { emptyC with empty := [img.filename] }
  | some ann =>
    match img.file with
    | none => { emptyC with mism := [img.filename] }
    | some bs =>
      match env.decode bs with
      | none => { emptyC with corrupt := [img.filename] }
      | some wh =>
        Contrib.app
          { emptyC with
            hashIns := [(bs, img.filename)]
            mism := if ann.width ≠ wh.1 ∨ ann.height ≠ wh.2 then [img.filename] else []
            empty := if ann.boxes = [] then [img.filename] else [] }
          (concatC (ann.boxes.map (boxContrib img.filename cls ann.width ann.height)))

theorem scanImage_eq (env : Env) (cls : List String) (st : ScanSt) (img : Img) :
    scanImage env cls st img = Contrib.merge st (imgContrib env cls img) := by
  rcases hA : env.anns img.id with _ | ann
  · cases st; simp [scanImage, imgContrib, hA, Contrib.merge, emptyC]
  rcases hF : img.file with _ | bs
  · cases st; simp [scanImage, imgContrib, hA, hF, Contrib.merge, emptyC]
  rcases hD : env.decode bs with _ | wh
  · cases st; simp [scanImage, imgContrib, hA, hF, hD, Contrib.merge, emptyC]
  simp only [scanImage, imgContrib, hA, hF, hD]
  rw [merge_app, ← foldl_merge]
  have hpb : processBox img.filename cls ann.width ann.height =
      fun s b => Contrib.merge s (boxContrib img.filename cls ann.width ann.height b) :=
    funext fun s => funext fun b => processBox_eq _ _ _ _ _ _
  rw [hpb]
  congr 1
  cases st
  split_ifs <;> simp_all [Contrib.merge, emptyC]

/-- All contributions of a list of images, in order. -/
def contribs (env : Env) (cls : List String) (imgs : List Img) : Contrib :=
  concatC (imgs.map (imgContrib env cls))

theorem scanImages_eq (env : Env) (cls : List String) (imgs : List Img) :
    scanImages env cls imgs = Contrib.merge initSt (contribs env cls imgs) := by
  unfold scanImages contribs
  rw [← foldl_merge]
  have h : scanImage env cls = fun s i => Contrib.merge s (imgContrib env cls i) :=
    funext fun s => funext fun i => scanImage_eq _ _ _ _
  rw [h]

/-! ## Field characterizations of the scan -/

theorem concatC_anns (cs : List Contrib) :
    (concatC cs).anns = (cs.map Contrib.anns).flatten := by
  induction cs <;> simp_all [concatC, Contrib.app, emptyC]

theorem concatC_names (cs : List Contrib) :
    (concatC cs).names = (cs.map Contrib.names).flatten := by
  induction cs <;> simp_all [concatC, Contrib.app, emptyC]

theorem concatC_sizes (cs : List Contrib) :
    (concatC cs).sizes = (cs.map Contrib.sizes).flatten := by
  induction cs <;> simp_all [concatC, Contrib.app, emptyC]

theorem concatC_aspects (cs : List Contrib) :
    (concatC cs).aspects = (cs.map Contrib.aspects).flatten := by
  induction cs <;> simp_all [concatC, Contrib.app, emptyC]

theorem concatC_hashIns (cs : List Contrib) :
    (concatC cs).hashIns = (cs.map Contrib.hashIns).flatten := by
  induction cs <;> simp_all [concatC, Contrib.app, emptyC]

theorem concatC_corrupt (cs : List Contrib) :
    (concatC cs).corrupt = (cs.map Contrib.corrupt).flatten := by
  induction cs <;> simp_all [concatC, Contrib.app, emptyC]

theorem concatC_mism (cs : List Contrib) :
    (concatC cs).mism = (cs.map Contrib.mism).flatten := by
  induction cs <;> simp_all [concatC, Contrib.app, emptyC]

theorem concatC_invalid (cs : List Contrib) :
    (concatC cs).invalid = (cs.map Contrib.invalid).flatten := by
  induction cs <;> simp_all [concatC, Contrib.app, emptyC]

theorem concatC_empty (cs : List Contrib) :
    (concatC cs).empty = (cs.map Contrib.empty).flatten := by
  induction cs <;> simp_all [concatC, Contrib.app, emptyC]

theorem concatC_icls (cs : List Contrib) :
    (concatC cs).icls = (cs.map Contrib.icls).flatten := by
  induction cs <;> simp_all [concatC, Contrib.app, emptyC]

theorem concatC_oob (cs : List Contrib) :
    (concatC cs).oob = (cs.map Contrib.oob).flatten := by
  induction cs <;> simp_all [concatC, Contrib.app, emptyC]

theorem scan_anns (env : Env) (cls : List String) (imgs : List Img) :
    (scanImages env cls imgs).anns =
      (imgs.map (fun i => (imgContrib env cls i).anns)).flatten := by
  rw [scanImages_eq]
  simp [Contrib.merge, initSt, contribs, concatC_anns, List.map_map, Function.comp_def]

theorem scan_counts (env : Env) (cls : List String) (imgs : List Img) :
    (scanImages env cls imgs).counts =
      ((imgs.map (fun i => (imgContrib env cls i).names)).flatten).foldl incr [] := by
  rw [scanImages_eq]
  simp [Contrib.merge, initSt, contribs, concatC_names, List.map_map, Function.comp_def]

theorem scan_sizes (env : Env) (cls : List String) (imgs : List Img) :
    (scanImages env cls imgs).sizes =
      (imgs.map (fun i => (imgContrib env cls i).sizes)).flatten := by
  rw [scanImages_eq]
  simp [Contrib.merge, initSt, contribs, concatC_sizes, List.map_map, Function.comp_def]

theorem scan_aspects (env : Env) (cls : List String) (imgs : List Img) :
    (scanImages env cls imgs).aspects =
      (imgs.map (fun i => (imgContrib env cls i).aspects)).flatten := by
  rw [scanImages_eq]
  simp [Contrib.merge, initSt, contribs, concatC_aspects, List.map_map, Function.comp_def]

theorem scan_hashes (env : Env) (cls : List String) (imgs : List Img) :
    (scanImages env cls imgs).hashes =
      ((imgs.map (fun i => (imgContrib env cls i).hashIns)).flatten).foldl
        (fun h p => addHash h p.1 p.2) [] := by
  rw [scanImages_eq]
  simp [Contrib.merge, initSt, contribs, concatC_hashIns, List.map_map, Function.comp_def]

theorem scan_corrupt (env : Env) (cls : List String) (imgs : List Img) :
    (scanImages env cls imgs).corrupt =
      (imgs.map (fun i => (imgContrib env cls i).corrupt)).flatten := by
  rw [scanImages_eq]
  simp [Contrib.merge, initSt, contribs, concatC_corrupt, List.map_map, Function.comp_def]

theorem scan_mism (env : Env) (cls : List String) (imgs : List Img) :
    (scanImages env cls imgs).mism =
      (imgs.map (fun i => (imgContrib env cls i).mism)).flatten := by
  rw [scanImages_eq]
  simp [Contrib.merge, initSt, contribs, concatC_mism, List.map_map, Function.comp_def]

theorem scan_invalid (env : Env) (cls : List String) (imgs : List Img) :
    (scanImages env cls imgs).invalid =
      (imgs.map (fun i => (imgContrib env cls i).invalid)).flatten := by
  rw [scanImages_eq]
  simp [Contrib.merge, initSt, contribs, concatC_invalid, List.map_map, Function.comp_def]

theorem scan_empty (env : Env) (cls : List String) (imgs : List Img) :
    (scanImages env cls imgs).empty =
      (imgs.map (fun i => (imgContrib env cls i).empty)).flatten := by
  rw [scanImages_eq]
  simp [Contrib.merge, initSt, contribs, concatC_empty, List.map_map, Function.comp_def]

theorem scan_icls (env : Env) (cls : List String) (imgs : List Img) :
    (scanImages env cls imgs).icls =
      (imgs.map (fun i => (imgContrib env cls i).icls)).flatten := by
  rw [scanImages_eq]
  simp [Contrib.merge, initSt, contribs, concatC_icls, List.map_map, Function.comp_def]

theorem scan_oob (env : Env) (cls : List String) (imgs : List Img) :
    (scanImages env cls imgs).oob =
      (imgs.map (fun i => (imgContrib env cls i).oob)).flatten := by
  rw [scanImages_eq]
  simp [Contrib.merge, initSt, contribs, concatC_oob, List.map_map, Function.comp_def]

/-! ## Valid-box streams -/

theorem boxContrib_anns (fn : String) (cls : List String) (W H : ℚ) (b : Box) :
    (boxContrib fn cls W H b).anns = if validBox W H b then [b] else [] := by
  unfold boxContrib validBox
  split_ifs <;> simp_all [emptyC]

theorem boxContrib_names (fn : String) (cls : List String) (W H : ℚ) (b : Box) :
    (boxContrib fn cls W H b).names =
      if validBox W H b ∧ b.class_name ≠ "" then [b.class_name] else [] := by
  unfold boxContrib validBox
  split_ifs <;> simp_all [emptyC]

theorem boxContrib_sizes (fn : String) (cls : List String) (W H : ℚ) (b : Box) :
    (boxContrib fn cls W H b).sizes =
      if validBox W H b ∧ 0 < W * H then [b.width * b.height / (W * H)] else [] := by
  unfold boxContrib validBox
  split_ifs <;> simp_all [emptyC]

theorem boxContrib_aspects (fn : String) (cls : List String) (W H : ℚ) (b : Box) :
    (boxContrib fn cls W H b).aspects =
      if validBox W H b ∧ 0 < W * H ∧ (0 < b.width ∧ 0 < b.height) then
        [b.width / b.height]
      else [] := by
  unfold boxContrib validBox
  split_ifs <;> simp_all [emptyC]

/-- The `(img_width, img_height, box)` triples of the boxes of one
annotated image that pass the bounds and positivity checks; empty when
the image is skipped (null annotation, missing file, decode failure). -/
def imgTriples (env : Env) (i : Img) : List (ℚ × ℚ × Box) :=
  match env.anns i.id with
  | none => []
  | some ann =>
    match i.file with
    | none => []
    | some bs =>
      match env.decode bs with
      | none => []
      | some _ =>
        (ann.boxes.filter (fun b => decide (validBox ann.width ann.height b))).map
          (fun b => (ann.width, ann.height, b))

/-- All check-passing boxes of the dataset, with their annotation
dimensions, in scan order. -/
def survivingTriples (env : Env) (ds : Dataset) : List (ℚ × ℚ × Box) :=
  ((ds.images.filter (fun i => i.annotated)).map (imgTriples env)).flatten

theorem flatten_if_singleton {α : Type} (p : α → Prop) [DecidablePred p] (l : List α) :
    (l.map (fun a => if p a then [a] else [])).flatten = l.filter (fun a => decide (p a)) := by
  induction l with
  | nil => rfl
  | cons a rest ih =>
    simp only [List.map_cons, List.flatten_cons, List.filter_cons]
    split_ifs <;> simp_all

theorem anns_boxes (fn : String) (cls : List String) (W H : ℚ) (boxes : List Box) :
    (boxes.map (fun b => (boxContrib fn cls W H b).anns)).flatten =
      boxes.filter (fun b => decide (validBox W H b)) := by
  simp only [boxContrib_anns]
  exact flatten_if_singleton _ _

theorem imgContrib_anns (env : Env) (cls : List String) (i : Img) :
    (imgContrib env cls i).anns = (imgTriples env i).map (fun t => t.2.2) := by
  rcases hA : env.anns i.id with _ | ann
  · simp [imgContrib, imgTriples, hA, emptyC]
  rcases hF : i.file with _ | bs
  · simp [imgContrib, imgTriples, hA, hF, emptyC]
  rcases hD : env.decode bs with _ | wh
  · simp [imgContrib, imgTriples, hA, hF, hD, emptyC]
  simp only [imgContrib, imgTriples, hA, hF, hD, Contrib.app, concatC_anns, emptyC,
    List.map_map, Function.comp_def, List.nil_append]
  rw [anns_boxes]
  simp [List.map_map, Function.comp_def]

theorem scan_anns_triples (env : Env) (ds : Dataset) :
    (scanImages env ds.classes (ds.images.filter (fun i => i.annotated))).anns =
      (survivingTriples env ds).map (fun t => t.2.2) := by
  rw [scan_anns, survivingTriples]
  have h : (fun i => (imgContrib env ds.classes i).anns) =
      fun i => (imgTriples env i).map (fun t : ℚ × ℚ × Box => t.2.2) :=
    funext fun i => imgContrib_anns env ds.classes i
  rw [h]
  simp [List.map_flatten, List.map_map, Function.comp_def]

/-- The class-counter update one valid box performs. -/
def countStep (m : List (String × ℕ)) (b : Box) : List (String × ℕ) :=
  if b.class_name ≠ "" then incr m b.class_name else m

/-- The class-frequency map determined by the valid-box triples alone. -/
def classFreqOfTriples (ts : List (ℚ × ℚ × Box)) : List (String × ℕ) :=
  ts.foldl (fun m t => countStep m t.2.2) []

/-- The relative object size one valid-box triple contributes. -/
def sizeOfTriple (t : ℚ × ℚ × Box) : Option ℚ :=
  if 0 < t.1 * t.2.1 then some (t.2.2.width * t.2.2.height / (t.1 * t.2.1)) else none

/-- The `object_sizes` entries determined by the valid-box triples alone. -/
def sizesOfTriples (ts : List (ℚ × ℚ × Box)) : List ℚ :=
  ts.filterMap sizeOfTriple

/-- The aspect ratio one valid-box triple contributes. -/
def aspectOfTriple (t : ℚ × ℚ × Box) : Option ℚ :=
  if 0 < t.1 * t.2.1 ∧ (0 < t.2.2.width ∧ 0 < t.2.2.height) then
    some (t.2.2.width / t.2.2.height)
  else none

/-- The `aspect_ratios` entries determined by the valid-box triples alone. -/
def aspectsOfTriples (ts : List (ℚ × ℚ × Box)) : List ℚ :=
  ts.filterMap aspectOfTriple

theorem flatten_if_foldl {α : Type} (p q : α → Prop) [DecidablePred p] [DecidablePred q]
    (f : α → String) (l : List α) :
    ∀ m, ((l.map (fun a => if p a ∧ q a then [f a] else [])).flatten).foldl incr m =
      (l.filter (fun a => decide (p a))).foldl
        (fun m a => if q a then incr m (f a) else m) m := by
  induction l with
  | nil => intro m; rfl
  | cons a rest ih =>
    intro m
    simp only [List.map_cons, List.flatten_cons, List.filter_cons, List.foldl_append]
    by_cases hp : p a <;> by_cases hq : q a <;> simp [hp, hq, ih]

theorem flatten_if_filterMap {α β : Type} (p q : α → Prop) [DecidablePred p] [DecidablePred q]
    (f : α → β) (l : List α) :
    (l.map (fun a => if p a ∧ q a then [f a] else [])).flatten =
      (l.filter (fun a => decide (p a))).filterMap
        (fun a => if q a then some (f a) else none) := by
  induction l with
  | nil => rfl
  | cons a rest ih =>
    simp only [List.map_cons, List.flatten_cons, List.filter_cons]
    by_cases hp : p a <;> by_cases hq : q a <;> simp [hp, hq, ih]

theorem filterMap_flatten {α β : Type} (f : α → Option β) (L : List (List α)) :
    L.flatten.filterMap f = (L.map (fun l => l.filterMap f)).flatten := by
  induction L <;> simp_all

theorem imgContrib_names_foldl (env : Env) (cls : List String) (i : Img) :
    ∀ m, ((imgContrib env cls i).names).foldl incr m = (imgTriples env i).foldl
      (fun m t => countStep m t.2.2) m := by
  intro m
  rcases hA : env.anns i.id with _ | ann
  · simp [imgContrib, imgTriples, hA, emptyC]
  rcases hF : i.file with _ | bs
  · simp [imgContrib, imgTriples, hA, hF, emptyC]
  rcases hD : env.decode bs with _ | wh
  · simp [imgContrib, imgTriples, hA, hF, hD, emptyC]
  simp only [imgContrib, imgTriples, hA, hF, hD, Contrib.app, concatC_names, emptyC,
    List.map_map, Function.comp_def, List.nil_append, List.foldl_map]
  have hb : (fun b => (boxContrib i.filename cls ann.width ann.height b).names) =
      fun b => if validBox ann.width ann.height b ∧ b.class_name ≠ "" then [b.class_name]
        else [] :=
    funext (boxContrib_names i.filename cls ann.width ann.height)
  rw [hb, flatten_if_foldl]
  simp [countStep]

theorem imgContrib_sizes (env : Env) (cls : List String) (i : Img) :
    (imgContrib env cls i).sizes = sizesOfTriples (imgTriples env i) := by
  rcases hA : env.anns i.id with _ | ann
  · simp [imgContrib, imgTriples, hA, emptyC, sizesOfTriples]
  rcases hF : i.file with _ | bs
  · simp [imgContrib, imgTriples, hA, hF, emptyC, sizesOfTriples]
  rcases hD : env.decode bs with _ | wh
  · simp [imgContrib, imgTriples, hA, hF, hD, emptyC, sizesOfTriples]
  simp only [imgContrib, imgTriples, hA, hF, hD, Contrib.app, concatC_sizes, emptyC,
    List.map_map, Function.comp_def, List.nil_append, sizesOfTriples, List.filterMap_map]
  have hb : (fun b => (boxContrib i.filename cls ann.width ann.height b).sizes) =
      fun b => if validBox ann.width ann.height b ∧ 0 < ann.width * ann.height then
        [b.width * b.height / (ann.width * ann.height)] else [] :=
    funext (boxContrib_sizes i.filename cls ann.width ann.height)
  rw [hb, flatten_if_filterMap]
  simp [sizeOfTriple]

theorem imgContrib_aspects (env : Env) (cls : List String) (i : Img) :
    (imgContrib env cls i).aspects = aspectsOfTriples (imgTriples env i) := by
  rcases hA : env.anns i.id with _ | ann
  · simp [imgContrib, imgTriples, hA, emptyC, aspectsOfTriples]
  rcases hF : i.file with _ | bs
  · simp [imgContrib, imgTriples, hA, hF, emptyC, aspectsOfTriples]
  rcases hD : env.decode bs with _ | wh
  · simp [imgContrib, imgTriples, hA, hF, hD, emptyC, aspectsOfTriples]
  simp only [imgContrib, imgTriples, hA, hF, hD, Contrib.app, concatC_aspects, emptyC,
    List.map_map, Function.comp_def, List.nil_append, aspectsOfTriples, List.filterMap_map]
  have hb : (fun b => (boxContrib i.filename cls ann.width ann.height b).aspects) =
      fun b => if validBox ann.width ann.height b ∧
          (0 < ann.width * ann.height ∧ (0 < b.width ∧ 0 < b.height)) then
        [b.width / b.height] else [] := by
    funext b
    rw [boxContrib_aspects]
  rw [hb, flatten_if_filterMap]
  simp [aspectOfTriple]

theorem scan_counts_triples (env : Env) (ds : Dataset) :
    (scanImages env ds.classes (ds.images.filter (fun i => i.annotated))).counts =
      classFreqOfTriples (survivingTriples env ds) := by
  rw [scan_counts, survivingTriples, classFreqOfTriples]
  generalize ds.images.filter (fun i => i.annotated) = imgs
  suffices h : ∀ (imgs : List Img) (m : List (String × ℕ)),
      ((imgs.map (fun i => (imgContrib env ds.classes i).names)).flatten).foldl incr m =
        ((imgs.map (imgTriples env)).flatten).foldl (fun m t => countStep m t.2.2) m by
    exact h imgs []
  intro imgs
  induction imgs with
  | nil => intro m; rfl
  | cons i rest ih =>
    intro m
    simp only [List.map_cons, List.flatten_cons, List.foldl_append, ih,
      imgContrib_names_foldl]

theorem scan_sizes_triples (env : Env) (ds : Dataset) :
    (scanImages env ds.classes (ds.images.filter (fun i => i.annotated))).sizes =
      sizesOfTriples (survivingTriples env ds) := by
  rw [scan_sizes, survivingTriples, sizesOfTriples, filterMap_flatten]
  simp only [List.map_map, Function.comp_def]
  have h : (fun i => (imgContrib env ds.classes i).sizes) =
      fun i => (imgTriples env i).filterMap sizeOfTriple := by
    funext i
    rw [imgContrib_sizes]
    rfl
  rw [h]

theorem scan_aspects_triples (env : Env) (ds : Dataset) :
    (scanImages env ds.classes (ds.images.filter (fun i => i.annotated))).aspects =
      aspectsOfTriples (survivingTriples env ds) := by
  rw [scan_aspects, survivingTriples, aspectsOfTriples, filterMap_flatten]
  simp only [List.map_map, Function.comp_def]
  have h : (fun i => (imgContrib env ds.classes i).aspects) =
      fun i => (imgTriples env i).filterMap aspectOfTriple := by
    funext i
    rw [imgContrib_aspects]
    rfl
  rw [h]

/-! ## Projections of `analyzeDataset` -/

/-- The images the scan iterates over (`annotated_images` list). -/
def annotatedOf (ds : Dataset) : List Img := ds.images.filter (fun i => i.annotated)

/-- The final scan state of a dataset. -/
def scanOf (env : Env) (ds : Dataset) : ScanSt := scanImages env ds.classes (annotatedOf ds)

/-- The `duplicate_filenames` list: all but the first filename of every
hash entry with more than one filename, in table order. -/
def dupsOf (env : Env) (ds : Dataset) : List String :=
  (((scanOf env ds).hashes.filter (fun p => decide (1 < p.2.length))).map
    (fun p => p.2.drop 1)).flatten

theorem analyze_class_frequency (env : Env) (ds : Dataset) :
    (analyzeDataset env ds).class_frequency = (scanOf env ds).counts := rfl

theorem analyze_size_dist (env : Env) (ds : Dataset) :
    (analyzeDataset env ds).object_size_distribution = categorizeSizes (scanOf env ds).sizes := rfl

theorem analyze_aspect_dist (env : Env) (ds : Dataset) :
    (analyzeDataset env ds).aspect_ratio_distribution =
      categorizeAspects (scanOf env ds).aspects := rfl

theorem analyze_total_annotations (env : Env) (ds : Dataset) :
    (analyzeDataset env ds).total_annotations = (scanOf env ds).anns.length := rfl

theorem analyze_corrupt (env : Env) (ds : Dataset) :
    (analyzeDataset env ds).corrupt_images = (scanOf env ds).corrupt := rfl

theorem analyze_mism (env : Env) (ds : Dataset) :
    (analyzeDataset env ds).label_mismatches = (scanOf env ds).mism := rfl

theorem analyze_empty (env : Env) (ds : Dataset) :
    (analyzeDataset env ds).empty_annotations = (scanOf env ds).empty := rfl

theorem analyze_dups (env : Env) (ds : Dataset) :
    (analyzeDataset env ds).duplicate_images = dupsOf env ds := rfl

theorem analyze_leak (env : Env) (ds : Dataset) :
    (analyzeDataset env ds).data_leakage_detected =
      (analyzeSplits (annotatedOf ds) (scanOf env ds).hashes).leak := rfl

theorem analyze_annotated_images (env : Env) (ds : Dataset) :
    (analyzeDataset env ds).annotated_images = (annotatedOf ds).length := rfl

theorem analyze_total_images (env : Env) (ds : Dataset) :
    (analyzeDataset env ds).total_images = ds.images.length := rfl

theorem analyze_avg (env : Env) (ds : Dataset) :
    (analyzeDataset env ds).avg_objects_per_image =
      if (annotatedOf ds).length = 0 then 0
      else ((scanOf env ds).anns.length : ℚ) / ((annotatedOf ds).length : ℚ) := rfl

theorem analyze_iou (env : Env) (ds : Dataset) :
    (analyzeDataset env ds).iou_consistency_score = calcIou (scanOf env ds).anns := rfl

theorem analyze_balance (env : Env) (ds : Dataset) :
    (analyzeDataset env ds).class_balance_score =
      calcClassBalance env.sq (scanOf env ds).counts := rfl

theorem analyze_accuracy (env : Env) (ds : Dataset) :
    (analyzeDataset env ds).label_accuracy_score =
      calcLabelAccuracy (annotatedOf ds) (scanOf env ds).mism (scanOf env ds).corrupt
        (scanOf env ds).invalid.length (scanOf env ds).empty.length
        (scanOf env ds).oob.length := rfl

theorem analyze_quality (env : Env) (ds : Dataset) :
    (analyzeDataset env ds).overall_quality_score =
      calcQuality (analyzeDataset env ds).class_balance_score
        (analyzeDataset env ds).label_accuracy_score
        (analyzeDataset env ds).iou_consistency_score
        (scanOf env ds).corrupt.length (dupsOf env ds).length (scanOf env ds).mism.length
        (annotatedOf ds).length
        (analyzeDataset env ds).data_leakage_detected
        (scanOf env ds).invalid.length (scanOf env ds).empty.length
        (scanOf env ds).oob.length (scanOf env ds).icls.length := rfl

theorem analyze_oob (env : Env) (ds : Dataset) :
    (analyzeDataset env ds).boxes_out_of_bounds = (scanOf env ds).oob := rfl

theorem analyze_icls (env : Env) (ds : Dataset) :
    (analyzeDataset env ds).invalid_class_ids = (scanOf env ds).icls := rfl

theorem analyze_invalid_boxes_length (env : Env) (ds : Dataset) :
    (analyzeDataset env ds).invalid_boxes.length = (scanOf env ds).invalid.length := by
  show ((List.range (scanOf env ds).invalid.length).map _).length = _
  simp

/-! ## C7: boxes failing bounds or positivity checks contribute to no statistics -/

/-- C7: every box failing the bounds check or the positivity check
contributes to none of `class_frequency`, `object_size_distribution`,
`aspect_ratio_distribution`: those three results are functions of the
valid-box triples only (`survivingTriples` keeps exactly the boxes
passing both checks, as its first conjunct states). -/
theorem C7_box_exclusion (env : Env) (ds : Dataset) :
    (∀ t ∈ survivingTriples env ds, validBox t.1 t.2.1 t.2.2) ∧
    (analyzeDataset env ds).class_frequency = classFreqOfTriples (survivingTriples env ds) ∧
    (analyzeDataset env ds).object_size_distribution =
      categorizeSizes (sizesOfTriples (survivingTriples env ds)) ∧
    (analyzeDataset env ds).aspect_ratio_distribution =
      categorizeAspects (aspectsOfTriples (survivingTriples env ds)) := by
  refine ⟨?_, ?_, ?_, ?_⟩
  · intro t ht
    rw [survivingTriples, List.mem_flatten] at ht
    obtain ⟨l, hl, htl⟩ := ht
    rw [List.mem_map] at hl
    obtain ⟨i, _, rfl⟩ := hl
    rcases hA : env.anns i.id with _ | ann
    · simp [imgTriples, hA] at htl
    rcases hF : i.file with _ | bs
    · simp [imgTriples, hA, hF] at htl
    rcases hD : env.decode bs with _ | wh
    · simp [imgTriples, hA, hF, hD] at htl
    simp only [imgTriples, hA, hF, hD, List.mem_map] at htl
    obtain ⟨b, hb, rfl⟩ := htl
    rw [List.mem_filter] at hb
    simpa using hb.2
  · rw [analyze_class_frequency, scanOf, annotatedOf, scan_counts_triples]
  · rw [analyze_size_dist, scanOf, annotatedOf, scan_sizes_triples]
  · rw [analyze_aspect_dist, scanOf, annotatedOf, scan_aspects_triples]

/-- Witness for C7 on a concrete dataset: one annotated image whose
annotation holds one valid box, one out-of-bounds box and one
zero-width box; only the valid box is counted anywhere. -/
theorem C7_box_exclusion_witness :
    (analyzeDataset
      ⟨ratSqrt, fun _ => some (100, 100), fun _ => some ⟨100, 100,
        [⟨0, 0, 10, 20, 0, "A"⟩, ⟨90, 90, 50, 50, 0, "A"⟩, ⟨5, 5, 0, 10, 0, "A"⟩]⟩, ⟨[], []⟩⟩
      ⟨"d", "d", ["A"], [⟨"i1", "f1.jpg", some "bytes1", true, some "train"⟩]⟩).class_frequency
        = [("A", 1)] ∧
    (analyzeDataset
      ⟨ratSqrt, fun _ => some (100, 100), fun _ => some ⟨100, 100,
        [⟨0, 0, 10, 20, 0, "A"⟩, ⟨90, 90, 50, 50, 0, "A"⟩, ⟨5, 5, 0, 10, 0, "A"⟩]⟩, ⟨[], []⟩⟩
      ⟨"d", "d", ["A"], [⟨"i1", "f1.jpg", some "bytes1", true, some "train"⟩]⟩).class_frequency
        = classFreqOfTriples (survivingTriples
      ⟨ratSqrt, fun _ => some (100, 100), fun _ => some ⟨100, 100,
        [⟨0, 0, 10, 20, 0, "A"⟩, ⟨90, 90, 50, 50, 0, "A"⟩, ⟨5, 5, 0, 10, 0, "A"⟩]⟩, ⟨[], []⟩⟩
      ⟨"d", "d", ["A"], [⟨"i1", "f1.jpg", some "bytes1", true, some "train"⟩]⟩) := by
  constructor
  · rw [analyze_class_frequency]
    simp +decide [scanOf, annotatedOf, scanImages, scanImage, processBox, initSt, oobPred,
      nonposPred, iclsOf, incr]
    norm_num
  · exact (C7_box_exclusion _ _).2.1

/-! ## C9: the denominator of `avg_objects_per_image` -/

/-- Whether an annotated image passes file validation (file present and
decodable) and dimension validation (stored annotation dimensions equal
the decoded dimensions) — the "surviving" notion used by the spec's
description of `avg_objects_per_image`. -/
def passesFileAndDims (env : Env) (i : Img) : Bool :=
  match env.anns i.id with
  | none => false
  | some ann =>
    match i.file with
    | none => false
    | some bs =>
      match env.decode bs with
      | none => false
      | some wh => decide (ann.width = wh.1 ∧ ann.height = wh.2)

/-- Modelled from the spec's words (claim C9): `avg_objects_per_image`
as total valid boxes divided by the number of SURVIVING annotated
images, for comparison against the implementation. -/
def avgObjectsSpecC9 (env : Env) (ds : Dataset) : ℚ :=
  let surv := (annotatedOf ds).filter (passesFileAndDims env)
  if surv.length = 0 then 0 else ((scanOf env ds).anns.length : ℚ) / (surv.length : ℚ)

/-- C9 (amended): `avg_objects_per_image` equals total valid boxes
divided by the count of ALL images flagged annotated (0 when there are
none), not by the count of surviving annotated images. -/
theorem C9_avg_denominator (env : Env) (ds : Dataset) :
    (analyzeDataset env ds).avg_objects_per_image =
      if (analyzeDataset env ds).annotated_images = 0 then 0
      else ((analyzeDataset env ds).total_annotations : ℚ) /
        ((analyzeDataset env ds).annotated_images : ℚ) := rfl

/-- Concrete refutation of C9 as stated: two annotated images, one with
a missing file (hence not surviving) and one surviving with two valid
boxes.  The implementation returns 2/2 = 1, the spec's formula gives
2/1 = 2. -/
theorem C9_counterexample :
    (analyzeDataset
      ⟨ratSqrt, fun _ => some (100, 100),
        fun i =>
          if i = "a" then some ⟨100, 100, [⟨0, 0, 10, 10, 0, "A"⟩]⟩
          else if i = "b" then
            some ⟨100, 100, [⟨0, 0, 10, 10, 0, "A"⟩, ⟨20, 20, 10, 10, 0, "A"⟩]⟩
          else none, ⟨[], []⟩⟩
      ⟨"d", "d", ["A"],
        [⟨"a", "a.jpg", none, true, some "train"⟩,
         ⟨"b", "b.jpg", some "BB", true, some "train"⟩]⟩).avg_objects_per_image = 1 ∧
    avgObjectsSpecC9
      ⟨ratSqrt, fun _ => some (100, 100),
        fun i =>
          if i = "a" then some ⟨100, 100, [⟨0, 0, 10, 10, 0, "A"⟩]⟩
          else if i = "b" then
            some ⟨100, 100, [⟨0, 0, 10, 10, 0, "A"⟩, ⟨20, 20, 10, 10, 0, "A"⟩]⟩
          else none, ⟨[], []⟩⟩
      ⟨"d", "d", ["A"],
        [⟨"a", "a.jpg", none, true, some "train"⟩,
         ⟨"b", "b.jpg", some "BB", true, some "train"⟩]⟩ = 2 ∧ (1 : ℚ) ≠ 2 := by
  refine ⟨?_, ?_, by norm_num⟩
  · rw [analyze_avg]
    simp +decide [scanOf, annotatedOf, scanImages, scanImage, processBox, initSt, oobPred,
      nonposPred, iclsOf, incr]
    norm_num
  · simp +decide [avgObjectsSpecC9, passesFileAndDims, scanOf, annotatedOf, scanImages,
      scanImage, processBox, initSt, oobPred, nonposPred, iclsOf, incr]
    norm_num

/-! ## C1: the denominator of the quality-score penalty -/

/-- Modelled from the spec's words (claim C1): the composite quality
score with the penalty denominator taken as the TOTAL number of images
in the dataset (annotated or not), for comparison against the
implementation, which passes `len(annotated_images)` instead. -/
def qualityWithTotalImagesC1 (env : Env) (ds : Dataset) : ℚ :=
  calcQuality (analyzeDataset env ds).class_balance_score
    (analyzeDataset env ds).label_accuracy_score
    (analyzeDataset env ds).iou_consistency_score
    (scanOf env ds).corrupt.length (dupsOf env ds).length (scanOf env ds).mism.length
    ds.images.length
    (analyzeDataset env ds).data_leakage_detected
    (scanOf env ds).invalid.length (scanOf env ds).empty.length
    (scanOf env ds).oob.length (scanOf env ds).icls.length

/-- C1 (amended): the penalty denominator of the composite quality
score is the number of ANNOTATED images (the `annotated_images` result
field), and the score is 0 exactly when that count is 0 — not the total
image count the claim states. -/
theorem C1_quality_denominator (env : Env) (ds : Dataset) :
    ((analyzeDataset env ds).annotated_images = 0 →
      (analyzeDataset env ds).overall_quality_score = 0) ∧
    ((analyzeDataset env ds).annotated_images ≠ 0 →
      (analyzeDataset env ds).overall_quality_score =
        max 0 (((analyzeDataset env ds).class_balance_score * (25 / 100) +
            (analyzeDataset env ds).label_accuracy_score * (35 / 100) +
            (analyzeDataset env ds).iou_consistency_score * (25 / 100) +
            (if (analyzeDataset env ds).invalid_class_ids.length = 0 then 1 else 5 / 10) *
              (15 / 100)) * 100 -
          ((((analyzeDataset env ds).corrupt_images.length +
              (analyzeDataset env ds).label_mismatches.length +
              (analyzeDataset env ds).boxes_out_of_bounds.length : ℕ) : ℚ) /
              ((analyzeDataset env ds).annotated_images : ℚ) * 40 +
            (((analyzeDataset env ds).duplicate_images.length +
              (analyzeDataset env ds).invalid_boxes.length : ℕ) : ℚ) /
              ((analyzeDataset env ds).annotated_images : ℚ) * 20 +
            (((analyzeDataset env ds).empty_annotations.length +
              (analyzeDataset env ds).invalid_class_ids.length : ℕ) : ℚ) /
              ((analyzeDataset env ds).annotated_images : ℚ) * 10) -
          (if (analyzeDataset env ds).data_leakage_detected then 25 else 0))) := by
  have hA := analyze_annotated_images env ds
  constructor
  · intro h0
    rw [analyze_quality]
    unfold calcQuality
    rw [if_pos (hA ▸ h0)]
  · intro hne
    rw [analyze_quality]
    unfold calcQuality
    rw [if_neg (hA ▸ hne)]
    simp only [analyze_corrupt, analyze_mism, analyze_oob, analyze_dups,
      analyze_invalid_boxes_length, analyze_empty, analyze_icls, analyze_annotated_images]
    congr 1
    push_cast
    ring

/-- Concrete refutation of C1 as stated: a dataset with one image that
is not annotated.  The spec's formula (denominator = total images = 1,
zero images → 0 not triggered) gives base 40 with no penalties, but the
implementation divides by `annotated_images = 0` and returns 0. -/
theorem C1_counterexample :
    (analyzeDataset
      ⟨ratSqrt, fun _ => some (100, 100), fun _ => none, ⟨[], []⟩⟩
      ⟨"d", "d", ["A"], [⟨"a", "a.jpg", some "BB", false, none⟩]⟩).overall_quality_score = 0 ∧
    qualityWithTotalImagesC1
      ⟨ratSqrt, fun _ => some (100, 100), fun _ => none, ⟨[], []⟩⟩
      ⟨"d", "d", ["A"], [⟨"a", "a.jpg", some "BB", false, none⟩]⟩ = 40 ∧
    (0 : ℚ) ≠ 40 := by
  refine ⟨?_, ?_, by norm_num⟩
  · rw [analyze_quality]
    simp +decide [calcQuality, scanOf, annotatedOf, scanImages, initSt, dupsOf]
  · rw [qualityWithTotalImagesC1, analyze_balance, analyze_accuracy, analyze_iou, analyze_leak]
    simp +decide [calcQuality, calcClassBalance, calcLabelAccuracy, calcIou, analyzeSplits,
      scanOf, annotatedOf, scanImages, initSt, dupsOf]
    norm_num

/-- Witness for the amended C1 on a dataset with no annotated images:
the implementation's zero-case is governed by the annotated count. -/
theorem C1_quality_denominator_witness :
    (analyzeDataset ⟨ratSqrt, fun _ => some (100, 100), fun _ => none, ⟨[], []⟩⟩
      ⟨"d", "d", ["A"], [⟨"a", "a.jpg", some "BB", false, none⟩]⟩).annotated_images = 0 ∧
    (analyzeDataset ⟨ratSqrt, fun _ => some (100, 100), fun _ => none, ⟨[], []⟩⟩
      ⟨"d", "d", ["A"], [⟨"a", "a.jpg", some "BB", false, none⟩]⟩).overall_quality_score = 0 :=
  ⟨by decide,
   (C1_quality_denominator ⟨ratSqrt, fun _ => some (100, 100), fun _ => none, ⟨[], []⟩⟩
     ⟨"d", "d", ["A"], [⟨"a", "a.jpg", some "BB", false, none⟩]⟩).1 (by decide)⟩

/-! ## Score bounds -/

theorem score_aux (x : ℚ) (hx : 0 ≤ x) :
    0 ≤ max 0 (1 - min x 1) ∧ max 0 (1 - min x 1) ≤ 1 := by
  constructor
  · exact le_max_left 0 _
  · apply max_le (by norm_num)
    have h : (0 : ℚ) ≤ min x 1 := le_min hx (by norm_num)
    linarith

theorem calcClassBalance_bounds (sq : ℚ → ℚ) (hsq : ∀ q, 0 ≤ sq q)
    (freq : List (String × ℕ)) :
    0 ≤ calcClassBalance sq freq ∧ calcClassBalance sq freq ≤ 1 := by
  unfold calcClassBalance
  dsimp only
  split_ifs with h1 h2 h3
  · norm_num
  · norm_num
  · norm_num
  · refine score_aux _ ?_
    apply div_nonneg (hsq _)
    apply div_nonneg
    · apply List.sum_nonneg
      intro x hx
      obtain ⟨p, _, rfl⟩ := List.mem_map.1 hx
      positivity
    · positivity

theorem calcLabelAccuracy_bounds (images : List Img) (mismatches corrupt : List String)
    (ibc ec oobc : ℕ) :
    0 ≤ calcLabelAccuracy images mismatches corrupt ibc ec oobc ∧
      calcLabelAccuracy images mismatches corrupt ibc ec oobc ≤ 1 := by
  unfold calcLabelAccuracy
  split_ifs with h1
  · norm_num
  · constructor
    · exact le_max_left 0 _
    · apply max_le (by norm_num)
      have herr : (0 : ℚ) ≤ ((mismatches.length : ℚ) * 1 + (corrupt.length : ℚ) * 1 +
          (ibc : ℚ) * (5 / 10) + (ec : ℚ) * (3 / 10) + (oobc : ℚ) * (8 / 10)) /
          (images.length : ℚ) := by positivity
      linarith

theorem pairLoop_snd_le (bs : List Box) : (pairLoop bs).2 ≤ (pairLoop bs).1 := by
  induction bs with
  | nil => simp [pairLoop]
  | cons b rest ih =>
    simp only [pairLoop]
    split_ifs
    · exact ih
    · exact Nat.add_le_add ih (List.length_filter_le _ _)

theorem calcIou_bounds (bs : List Box) : 0 ≤ calcIou bs ∧ calcIou bs ≤ 1 := by
  unfold calcIou
  dsimp only
  split_ifs with h1 h2 h3
  · norm_num
  all_goals constructor
  all_goals try exact le_max_left 0 _
  all_goals apply max_le (by norm_num)
  all_goals
    have hn : (0 : ℚ) < (bs.length : ℚ) := by
      have h2n : 2 ≤ bs.length := Nat.le_of_not_lt h1
      exact_mod_cast Nat.lt_of_lt_of_le (by norm_num) h2n
  all_goals
    have hvr : ((bs.filter (fun b => decide (wellFormed b))).length : ℚ) /
        (bs.length : ℚ) ≤ 1 := by
      rw [div_le_one hn]
      exact_mod_cast List.length_filter_le _ _
  · have hpen : (0 : ℚ) ≤ (((pairLoop bs).2 : ℚ) / ((pairLoop bs).1 : ℚ) - 3 / 10) *
        (5 / 10) := by nlinarith [h3]
    linarith
  · linarith
  · linarith

theorem calcQuality_bounds (b a i : ℚ) (cc dc mc ti : ℕ) (dl : Bool) (ibc ec oc icc : ℕ)
    (hb : 0 ≤ b ∧ b ≤ 1) (ha : 0 ≤ a ∧ a ≤ 1) (hi : 0 ≤ i ∧ i ≤ 1) :
    0 ≤ calcQuality b a i cc dc mc ti dl ibc ec oc icc ∧
      calcQuality b a i cc dc mc ti dl ibc ec oc icc ≤ 100 := by
  unfold calcQuality
  dsimp only
  split_ifs with h1 h2 h3
  · norm_num
  all_goals constructor
  all_goals try exact le_max_left 0 _
  all_goals apply max_le (by norm_num)
  all_goals
    have hpen : (0 : ℚ) ≤ ((cc : ℚ) + (mc : ℚ) + (oc : ℚ)) / (ti : ℚ) * 40 +
        ((dc : ℚ) + (ibc : ℚ)) / (ti : ℚ) * 20 + ((ec : ℚ) + (icc : ℚ)) / (ti : ℚ) * 10 := by
      positivity
  all_goals nlinarith [hb.1, hb.2, ha.1, ha.2, hi.1, hi.2, hpen]

/-! ## C2: the overall quality score is bounded -/

/-- C2: for every environment whose square root is nonnegative and every
dataset, `0 ≤ overall_quality_score ≤ 100`. -/
theorem C2_quality_bounds (env : Env) (ds : Dataset) (hsq : ∀ q, 0 ≤ env.sq q) :
    0 ≤ (analyzeDataset env ds).overall_quality_score ∧
      (analyzeDataset env ds).overall_quality_score ≤ 100 := by
  rw [analyze_quality]
  exact calcQuality_bounds _ _ _ _ _ _ _ _ _ _ _ _
    (by rw [analyze_balance]; exact calcClassBalance_bounds env.sq hsq _)
    (by rw [analyze_accuracy]; exact calcLabelAccuracy_bounds _ _ _ _ _ _)
    (by rw [analyze_iou]; exact calcIou_bounds _)

/-- Witness for C2 at a concrete environment and dataset. -/
theorem C2_quality_bounds_witness :
    0 ≤ (analyzeDataset
      ⟨ratSqrt, fun _ => some (100, 100),
        fun _ => some ⟨100, 100, [⟨0, 0, 10, 10, 0, "A"⟩]⟩, ⟨[], []⟩⟩
      ⟨"d", "d", ["A"], [⟨"i1", "f1.jpg", some "b1", true, some "train"⟩]⟩).overall_quality_score ∧
    (analyzeDataset
      ⟨ratSqrt, fun _ => some (100, 100),
        fun _ => some ⟨100, 100, [⟨0, 0, 10, 10, 0, "A"⟩]⟩, ⟨[], []⟩⟩
      ⟨"d", "d", ["A"], [⟨"i1", "f1.jpg", some "b1", true, some "train"⟩]⟩).overall_quality_score
      ≤ 100 :=
  C2_quality_bounds _ _ ratSqrt_nonneg

/-! ## C5: the class balance score -/

/-- Population mean of the per-class counts (`np.mean`). -/
def meanCounts (freq : List (String × ℕ)) : ℚ :=
  (freq.map (fun p => (p.2 : ℚ))).sum / (freq.length : ℚ)

/-- Population variance of the per-class counts (the square of `np.std`). -/
def varCounts (freq : List (String × ℕ)) : ℚ :=
  (freq.map (fun p => ((p.2 : ℚ) - meanCounts freq) ^ 2)).sum / (freq.length : ℚ)

/-- C5: the class-balance score is exactly 0 on an empty frequency map,
exactly 1 on a single-class map, always lies in `[0, 1]`, and on maps
with at least two classes and a nonzero mean equals
`1 − min(stddev/mean, 1)` — the `max(0, ·)` in the code is redundant
because `min(cv, 1) ≤ 1`. -/
theorem C5_class_balance (sq : ℚ → ℚ) (hsq : ∀ q, 0 ≤ sq q) :
    calcClassBalance sq [] = 0 ∧
    (∀ c n, calcClassBalance sq [(c, n)] = 1) ∧
    (∀ freq, 0 ≤ calcClassBalance sq freq ∧ calcClassBalance sq freq ≤ 1) ∧
    (∀ freq : List (String × ℕ), 2 ≤ freq.length →
      (freq.map (fun p => (p.2 : ℚ))).sum ≠ 0 →
      calcClassBalance sq freq =
        1 - min (sq (varCounts freq) / meanCounts freq) 1) := by
  refine ⟨rfl, fun c n => rfl, fun freq => calcClassBalance_bounds sq hsq freq, ?_⟩
  intro freq hlen hsum
  have hne : freq ≠ [] := by
    intro h
    rw [h] at hlen
    simp at hlen
  have hlen1 : (freq.map (fun p => (p.2 : ℚ))).length ≠ 1 := by
    rw [List.length_map]
    omega
  have hlenq : ((freq.map (fun p => (p.2 : ℚ))).length : ℚ) ≠ 0 := by
    rw [List.length_map]
    have h0 : freq.length ≠ 0 := by omega
    exact_mod_cast h0
  have hmean : (freq.map (fun p => (p.2 : ℚ))).sum /
      ((freq.map (fun p => (p.2 : ℚ))).length : ℚ) ≠ 0 := div_ne_zero hsum hlenq
  unfold calcClassBalance
  dsimp only
  rw [if_neg hne, if_neg hlen1, if_neg hmean,
    max_eq_right (sub_nonneg.mpr (min_le_right _ _))]
  simp [varCounts, meanCounts, List.map_map, Function.comp_def]

/-- Witness for C5 at the empty and a singleton frequency map, with the
concrete square root `ratSqrt`. -/
theorem C5_class_balance_witness :
    calcClassBalance ratSqrt [] = 0 ∧ calcClassBalance ratSqrt [("A", 7)] = 1 :=
  ⟨(C5_class_balance ratSqrt ratSqrt_nonneg).1,
   (C5_class_balance ratSqrt ratSqrt_nonneg).2.1 "A" 7⟩

/-! ## C6: the IoU-consistency score -/

theorem validBox_wellFormed (W H : ℚ) (b : Box) (h : validBox W H b) : wellFormed b := by
  obtain ⟨hoob, hpos⟩ := h
  unfold nonposPred at hpos
  push_neg at hpos
  unfold oobPred at hoob
  push_neg at hoob
  exact ⟨hpos.1, hpos.2, hoob.1, hoob.2.1⟩

/-- Every box the scan lets through is well-formed in the sense of
`_calculate_iou_consistency`. -/
theorem survivingTriples_valid (env : Env) (ds : Dataset) :
    ∀ t ∈ survivingTriples env ds, validBox t.1 t.2.1 t.2.2 := by
  intro t ht
  rw [survivingTriples, List.mem_flatten] at ht
  obtain ⟨l, hl, htl⟩ := ht
  rw [List.mem_map] at hl
  obtain ⟨i, _, rfl⟩ := hl
  rcases hA : env.anns i.id with _ | ann
  · simp [imgTriples, hA] at htl
  rcases hF : i.file with _ | bs
  · simp [imgTriples, hA, hF] at htl
  rcases hD : env.decode bs with _ | wh
  · simp [imgTriples, hA, hF, hD] at htl
  simp only [imgTriples, hA, hF, hD, List.mem_map] at htl
  obtain ⟨b, hb, rfl⟩ := htl
  rw [List.mem_filter] at hb
  simpa using hb.2

/-- All unordered pairs of the box list, and how many of them overlap:
the claim's "fraction of overlapping pairs over all pairs" counted over
the whole valid-box list with no skipping. -/
def allPairs : List Box → ℕ × ℕ
  | [] => (0, 0)
  | b :: rest =>
    let t := allPairs rest
    (t.1 + rest.length, t.2 + (rest.filter (fun c => decide (overlaps b c))).length)

theorem allPairs_snd_le (bs : List Box) : (allPairs bs).2 ≤ (allPairs bs).1 := by
  induction bs with
  | nil => simp [allPairs]
  | cons b rest ih =>
    simp only [allPairs]
    exact Nat.add_le_add ih (List.length_filter_le _ _)

/-- The IoU-consistency score as claim C6 words it: 1.0 for fewer than
two boxes, otherwise the fraction of well-formed boxes minus a penalty
of `(ratio − 0.3) × 0.5` when the pairwise overlap ratio over all pairs
exceeds 0.3 (0 otherwise). -/
def iouSpecC6 (bs : List Box) : ℚ :=
  if bs.length < 2 then 1
  else
    let frac : ℚ := ((bs.filter (fun b => decide (wellFormed b))).length : ℚ) / (bs.length : ℚ)
    let p := allPairs bs
    let ratio : ℚ := if 0 < p.1 then (p.2 : ℚ) / (p.1 : ℚ) else 0
    let pen : ℚ := if ratio > 3 / 10 then (ratio - 3 / 10) * (5 / 10) else 0
    frac - pen

theorem pairLoop_eq_allPairs (bs : List Box) (h : ∀ b ∈ bs, ¬nonposPred b) :
    pairLoop bs = allPairs bs := by
  induction bs with
  | nil => rfl
  | cons b rest ih =>
    have hrest : ∀ c ∈ rest, ¬nonposPred c := fun c hc => h c (List.mem_cons_of_mem _ hc)
    have hfil : rest.filter (fun c => decide (¬(c.width ≤ 0 ∨ c.height ≤ 0))) = rest := by
      rw [List.filter_eq_self]
      intro c hc
      have hc2 := hrest c hc
      unfold nonposPred at hc2
      simpa using hc2
    simp only [pairLoop, allPairs]
    rw [if_neg (by simpa [nonposPred] using h b (List.mem_cons_self b rest)), hfil, ih hrest]

theorem calcIou_eq_iouSpec (bs : List Box) (h : ∀ b ∈ bs, wellFormed b) :
    calcIou bs = iouSpecC6 bs := by
  unfold calcIou iouSpecC6
  dsimp only
  by_cases h1 : bs.length < 2
  · rw [if_pos h1, if_pos h1]
  · rw [if_neg h1, if_neg h1]
    have hpos : ∀ b ∈ bs, ¬nonposPred b := by
      intro b hb
      have hw := h b hb
      unfold wellFormed at hw
      unfold nonposPred
      push_neg
      exact ⟨hw.1, hw.2.1⟩
    rw [pairLoop_eq_allPairs bs hpos]
    have hfil : bs.filter (fun b => decide (wellFormed b)) = bs := by
      rw [List.filter_eq_self]
      intro b hb
      exact decide_eq_true (h b hb)
    have hn : ((bs.length : ℚ)) ≠ 0 := by
      have h2n : 2 ≤ bs.length := Nat.le_of_not_lt h1
      have h0 : bs.length ≠ 0 := by omega
      exact_mod_cast h0
    have hvr : ((bs.filter (fun b => decide (wellFormed b))).length : ℚ) /
        (bs.length : ℚ) = 1 := by
      rw [hfil]
      exact div_self hn
    by_cases hp : 0 < (allPairs bs).1
    · simp only [if_pos hp]
      have hr : ((allPairs bs).2 : ℚ) / ((allPairs bs).1 : ℚ) ≤ 1 := by
        rw [div_le_one (by exact_mod_cast hp)]
        exact_mod_cast allPairs_snd_le bs
      apply max_eq_right
      rw [hvr]
      split_ifs with h3
      · linarith
      · norm_num
    · simp only [if_neg hp]
      rw [show ((if (0 : ℚ) > 3 / 10 then ((0 : ℚ) - 3 / 10) * (5 / 10) else 0)) = 0 by
        norm_num]
      exact max_eq_right (by rw [hvr]; norm_num)

/-- C6: the `iou_consistency_score` field equals the claim's formula
over the dataset's valid boxes: 1.0 when fewer than two valid boxes
exist, otherwise the fraction of well-formed boxes minus the overlap
penalty computed over all pairs of valid boxes of the whole dataset. -/
theorem C6_iou_consistency (env : Env) (ds : Dataset) :
    (analyzeDataset env ds).iou_consistency_score =
      iouSpecC6 ((survivingTriples env ds).map (fun t => t.2.2)) := by
  rw [analyze_iou,
    show (scanOf env ds).anns = (survivingTriples env ds).map (fun t => t.2.2) from
      scan_anns_triples env ds]
  apply calcIou_eq_iouSpec
  intro b hb
  rw [List.mem_map] at hb
  obtain ⟨t, ht, rfl⟩ := hb
  exact validBox_wellFormed _ _ _ (survivingTriples_valid env ds t ht)

/-! ## Hash-table lemmas for leakage and duplicates -/

theorem lookupD_addHash (h : List (Bytes × List String)) (b b' : Bytes) (f : String) :
    lookupD (addHash h b f) b' = lookupD h b' ++ (if b = b' then [f] else []) := by
  induction h with
  | nil =>
    simp only [addHash, lookupD]
    split_ifs with h1 <;> simp
  | cons e rest ih =>
    obtain ⟨a, fs⟩ := e
    by_cases h1 : a = b
    · subst h1
      simp only [addHash, if_pos rfl, lookupD]
      by_cases h2 : a = b'
      · simp [h2]
      · simp [h2]
    · simp only [addHash, if_neg h1, lookupD]
      by_cases h2 : a = b'
      · have hbb : ¬b = b' := fun hb => h1 (h2.trans hb.symm)
        simp [h2, hbb]
      · simp only [if_neg h2]
        exact ih

theorem lookupD_foldl (ins : List (Bytes × String)) (h0 : List (Bytes × List String))
    (b : Bytes) :
    lookupD (ins.foldl (fun h p => addHash h p.1 p.2) h0) b =
      lookupD h0 b ++ (ins.filter (fun p => decide (p.1 = b))).map (fun p => p.2) := by
  induction ins generalizing h0 with
  | nil => simp
  | cons p rest ih =>
    simp only [List.foldl_cons, ih, lookupD_addHash, List.filter_cons]
    by_cases h1 : p.1 = b
    · simp [h1]
    · simp [h1]

theorem lookupD_mem (h : List (Bytes × List String)) (b : Bytes) (hne : lookupD h b ≠ []) :
    (b, lookupD h b) ∈ h := by
  induction h with
  | nil => exact absurd rfl hne
  | cons e rest ih =>
    obtain ⟨a, fs⟩ := e
    by_cases h1 : a = b
    · subst h1
      simp only [lookupD, if_pos rfl]
      simp only [lookupD, if_pos rfl] at hne
      exact List.mem_cons_self _ _
    · simp only [lookupD, if_neg h1] at hne ⊢
      exact List.mem_cons_of_mem _ (ih hne)

theorem two_mem_dedup {l : List String} {a b : String} (ha : a ∈ l) (hb : b ∈ l)
    (hab : a ≠ b) : 1 < l.dedup.length := by
  have ha' : a ∈ l.dedup := List.mem_dedup.2 ha
  have hb' : b ∈ l.dedup := List.mem_dedup.2 hb
  rcases hd : l.dedup with _ | ⟨x, rest⟩
  · rw [hd] at ha'
    simp at ha'
  · rcases rest with _ | ⟨y, rest2⟩
    · rw [hd] at ha' hb'
      simp at ha' hb'
      exact absurd (ha'.trans hb'.symm) hab
    · simp

/-! ## C8: data leakage across splits -/

theorem boxContrib_hashIns (fn : String) (cls : List String) (W H : ℚ) (b : Box) :
    (boxContrib fn cls W H b).hashIns = [] := by
  unfold boxContrib
  split_ifs <;> rfl

theorem imgContrib_hashIns_some (env : Env) (cls : List String) (i : Img)
    (ann : AnnRec) (bs : Bytes) (wh : ℚ × ℚ)
    (hA : env.anns i.id = some ann) (hF : i.file = some bs) (hD : env.decode bs = some wh) :
    (imgContrib env cls i).hashIns = [(bs, i.filename)] := by
  simp only [imgContrib, hA, hF, hD, Contrib.app, concatC_hashIns, emptyC, List.map_map,
    Function.comp_def, boxContrib_hashIns]
  simp

theorem analyzeSplits_leak (annotated : List Img) (hashes : List (Bytes × List String))
    (hne : annotated ≠ []) :
    (analyzeSplits annotated hashes).leak =
      hashes.any (fun p => decide (1 < p.2.length) &&
        decide (1 < (splitsFor annotated p.2).dedup.length)) := by
  unfold analyzeSplits
  rw [if_neg (fun h0 => hne (List.length_eq_zero.mp h0))]

/-- C8: two annotated images that both survive to hashing (annotation
present, file present, decodable) with identical content and different
split labels force `data_leakage_detected = true`. -/
theorem C8_data_leakage (env : Env) (ds : Dataset) (l1 l2 l3 : List Img)
    (imgA imgB : Img) (annA annB : AnnRec) (bs : Bytes) (wh : ℚ × ℚ)
    (hims : ds.images = l1 ++ imgA :: (l2 ++ imgB :: l3))
    (hannA : imgA.annotated = true) (hannB : imgB.annotated = true)
    (hlA : env.anns imgA.id = some annA) (hlB : env.anns imgB.id = some annB)
    (hfA : imgA.file = some bs) (hfB : imgB.file = some bs)
    (hdec : env.decode bs = some wh)
    (hsplit : splitOrNone imgA ≠ splitOrNone imgB) :
    (analyzeDataset env ds).data_leakage_detected = true := by
  rw [analyze_leak]
  have hann : annotatedOf ds =
      l1.filter (fun i => i.annotated) ++ imgA ::
        (l2.filter (fun i => i.annotated) ++ imgB :: l3.filter (fun i => i.annotated)) := by
    simp [annotatedOf, hims, List.filter_append, hannA, hannB]
  have hmemA : imgA ∈ annotatedOf ds := by rw [hann]; simp
  have hmemB : imgB ∈ annotatedOf ds := by rw [hann]; simp
  have hne : annotatedOf ds ≠ [] := fun h => by rw [h] at hmemA; simp at hmemA
  rw [analyzeSplits_leak _ _ hne]
  have hlook : lookupD (scanOf env ds).hashes bs =
      ((((annotatedOf ds).map
          (fun i => (imgContrib env ds.classes i).hashIns)).flatten.filter
        (fun p => decide (p.1 = bs))).map (fun p => p.2)) := by
    rw [show (scanOf env ds).hashes =
        (((annotatedOf ds).map (fun i => (imgContrib env ds.classes i).hashIns)).flatten).foldl
          (fun h p => addHash h p.1 p.2) [] from scan_hashes env ds.classes (annotatedOf ds),
      lookupD_foldl]
    simp [lookupD]
  have hfsA : imgA.filename ∈ lookupD (scanOf env ds).hashes bs := by
    rw [hlook]
    apply List.mem_map.2
    refine ⟨(bs, imgA.filename), ?_, rfl⟩
    apply List.mem_filter.2
    refine ⟨?_, by simp⟩
    apply List.mem_flatten.2
    refine ⟨(imgContrib env ds.classes imgA).hashIns, List.mem_map.2 ⟨imgA, hmemA, rfl⟩, ?_⟩
    rw [imgContrib_hashIns_some env ds.classes imgA annA bs wh hlA hfA hdec]
    simp
  have hfsB : imgB.filename ∈ lookupD (scanOf env ds).hashes bs := by
    rw [hlook]
    apply List.mem_map.2
    refine ⟨(bs, imgB.filename), ?_, rfl⟩
    apply List.mem_filter.2
    refine ⟨?_, by simp⟩
    apply List.mem_flatten.2
    refine ⟨(imgContrib env ds.classes imgB).hashIns, List.mem_map.2 ⟨imgB, hmemB, rfl⟩, ?_⟩
    rw [imgContrib_hashIns_some env ds.classes imgB annB bs wh hlB hfB hdec]
    simp
  have hlen : 1 < (lookupD (scanOf env ds).hashes bs).length := by
    rw [hlook, hann]
    simp only [List.map_append, List.map_cons, List.flatten_append, List.flatten_cons,
      List.filter_append, List.length_append, List.length_map,
      imgContrib_hashIns_some env ds.classes imgA annA bs wh hlA hfA hdec,
      imgContrib_hashIns_some env ds.classes imgB annB bs wh hlB hfB hdec]
    simp
    omega
  have hfs_ne : lookupD (scanOf env ds).hashes bs ≠ [] := by
    intro h0
    rw [h0] at hlen
    simp at hlen
  have hentry := lookupD_mem (scanOf env ds).hashes bs hfs_ne
  have hsA : splitOrNone imgA ∈
      splitsFor (annotatedOf ds) (lookupD (scanOf env ds).hashes bs) :=
    List.mem_map.2 ⟨imgA, List.mem_filter.2 ⟨hmemA, by simpa using hfsA⟩, rfl⟩
  have hsB : splitOrNone imgB ∈
      splitsFor (annotatedOf ds) (lookupD (scanOf env ds).hashes bs) :=
    List.mem_map.2 ⟨imgB, List.mem_filter.2 ⟨hmemB, by simpa using hfsB⟩, rfl⟩
  have hded := two_mem_dedup hsA hsB hsplit
  apply List.any_eq_true.2
  refine ⟨(bs, lookupD (scanOf env ds).hashes bs), hentry, ?_⟩
  rw [Bool.and_eq_true]
  exact ⟨decide_eq_true hlen, decide_eq_true hded⟩

/-- Witness for C8: two byte-identical annotated images, one in
`train`, one in `val`. -/
theorem C8_data_leakage_witness :
    (analyzeDataset
      ⟨ratSqrt, fun _ => some (10, 10), fun _ => some ⟨10, 10, []⟩, ⟨[], []⟩⟩
      ⟨"d", "d", ["A"],
        [⟨"a", "a.jpg", some "CONTENT", true, some "train"⟩,
         ⟨"b", "b.jpg", some "CONTENT", true, some "val"⟩]⟩).data_leakage_detected = true :=
  C8_data_leakage _ _ [] [] []
    ⟨"a", "a.jpg", some "CONTENT", true, some "train"⟩
    ⟨"b", "b.jpg", some "CONTENT", true, some "val"⟩
    ⟨10, 10, []⟩ ⟨10, 10, []⟩ "CONTENT" (10, 10)
    rfl rfl rfl rfl rfl rfl rfl rfl (by decide)

/-! ## Dataset-level characterizations for exclusion claims -/

theorem scanOf_mism_flatten (env : Env) (ds : Dataset) :
    (scanOf env ds).mism =
      ((annotatedOf ds).map (fun i => (imgContrib env ds.classes i).mism)).flatten :=
  scan_mism env ds.classes (annotatedOf ds)

theorem scanOf_corrupt_flatten (env : Env) (ds : Dataset) :
    (scanOf env ds).corrupt =
      ((annotatedOf ds).map (fun i => (imgContrib env ds.classes i).corrupt)).flatten :=
  scan_corrupt env ds.classes (annotatedOf ds)

theorem scanOf_empty_flatten (env : Env) (ds : Dataset) :
    (scanOf env ds).empty =
      ((annotatedOf ds).map (fun i => (imgContrib env ds.classes i).empty)).flatten :=
  scan_empty env ds.classes (annotatedOf ds)

theorem scanOf_hashes_foldl (env : Env) (ds : Dataset) :
    (scanOf env ds).hashes =
      (((annotatedOf ds).map (fun i => (imgContrib env ds.classes i).hashIns)).flatten).foldl
        (fun h p => addHash h p.1 p.2) [] :=
  scan_hashes env ds.classes (annotatedOf ds)

theorem scanOf_counts_triples (env : Env) (ds : Dataset) :
    (scanOf env ds).counts = classFreqOfTriples (survivingTriples env ds) :=
  scan_counts_triples env ds

theorem scanOf_sizes_triples (env : Env) (ds : Dataset) :
    (scanOf env ds).sizes = sizesOfTriples (survivingTriples env ds) :=
  scan_sizes_triples env ds

theorem scanOf_aspects_triples (env : Env) (ds : Dataset) :
    (scanOf env ds).aspects = aspectsOfTriples (survivingTriples env ds) :=
  scan_aspects_triples env ds

theorem scanOf_anns_triples (env : Env) (ds : Dataset) :
    (scanOf env ds).anns = (survivingTriples env ds).map (fun t => t.2.2) :=
  scan_anns_triples env ds

theorem boxContrib_mism (fn : String) (cls : List String) (W H : ℚ) (b : Box) :
    (boxContrib fn cls W H b).mism = [] := by
  unfold boxContrib
  split_ifs <;> rfl

theorem boxContrib_corrupt (fn : String) (cls : List String) (W H : ℚ) (b : Box) :
    (boxContrib fn cls W H b).corrupt = [] := by
  unfold boxContrib
  split_ifs <;> rfl

theorem boxContrib_empty (fn : String) (cls : List String) (W H : ℚ) (b : Box) :
    (boxContrib fn cls W H b).empty = [] := by
  unfold boxContrib
  split_ifs <;> rfl

/-! ## C3: label mismatches are flagged but NOT excluded -/

/-- C3 (amended): an annotated image whose stored annotation dimensions
differ from the decoded dimensions is appended to `label_mismatches`
but is NOT excluded from subsequent statistics: its boxes (validated
against the stored annotation dimensions) still contribute to
`total_annotations`. -/
theorem C3_mismatch_not_excluded (env : Env) (id nm : String) (cls : List String)
    (l1 l2 : List Img) (img : Img) (ann : AnnRec) (bs : Bytes) (wh : ℚ × ℚ)
    (hann : img.annotated = true) (hl : env.anns img.id = some ann)
    (hf : img.file = some bs) (hd : env.decode bs = some wh)
    (hmm : ann.width ≠ wh.1 ∨ ann.height ≠ wh.2) :
    img.filename ∈ (analyzeDataset env ⟨id, nm, cls, l1 ++ img :: l2⟩).label_mismatches ∧
    (analyzeDataset env ⟨id, nm, cls, l1 ++ img :: l2⟩).total_annotations =
      (analyzeDataset env ⟨id, nm, cls, l1 ++ l2⟩).total_annotations +
        (ann.boxes.filter (fun b => decide (validBox ann.width ann.height b))).length := by
  have hannotated : annotatedOf ⟨id, nm, cls, l1 ++ img :: l2⟩ =
      l1.filter (fun i => i.annotated) ++ img :: l2.filter (fun i => i.annotated) := by
    simp [annotatedOf, List.filter_append, hann]
  have hannotated' : annotatedOf ⟨id, nm, cls, l1 ++ l2⟩ =
      l1.filter (fun i => i.annotated) ++ l2.filter (fun i => i.annotated) := by
    simp [annotatedOf, List.filter_append]
  constructor
  · rw [analyze_mism, scanOf_mism_flatten, hannotated]
    have hc : (imgContrib env cls img).mism = [img.filename] := by
      simp [imgContrib, hl, hf, hd, Contrib.app, concatC_mism, emptyC, List.map_map,
        Function.comp_def, boxContrib_mism, hmm]
    simp [hc]
  · rw [analyze_total_annotations, analyze_total_annotations, scanOf_anns_triples,
      scanOf_anns_triples]
    simp only [List.length_map]
    unfold survivingTriples
    have himgT : (imgTriples env img).length =
        (ann.boxes.filter (fun b => decide (validBox ann.width ann.height b))).length := by
      simp [imgTriples, hl, hf, hd]
    rw [show (Dataset.mk id nm cls (l1 ++ img :: l2)).images.filter (fun i => i.annotated) =
        annotatedOf ⟨id, nm, cls, l1 ++ img :: l2⟩ from rfl,
      show (Dataset.mk id nm cls (l1 ++ l2)).images.filter (fun i => i.annotated) =
        annotatedOf ⟨id, nm, cls, l1 ++ l2⟩ from rfl,
      hannotated, hannotated']
    simp only [List.map_append, List.map_cons, List.flatten_append, List.flatten_cons,
      List.length_append, List.length_flatten]
    rw [himgT]
    omega

/-- Concrete refutation of C3 as stated: one annotated image whose
stored annotation is 100×100 while the file decodes to 50×50.  The
image is flagged in `label_mismatches`, yet its (valid) box still
lands in the statistics: `total_annotations = 1`, not 0. -/
theorem C3_counterexample :
    (analyzeDataset
      ⟨ratSqrt, fun _ => some (50, 50),
        fun _ => some ⟨100, 100, [⟨0, 0, 10, 10, 0, "A"⟩]⟩, ⟨[], []⟩⟩
      ⟨"d", "d", ["A"],
        [⟨"i1", "f1.jpg", some "B", true, some "train"⟩]⟩).label_mismatches = ["f1.jpg"] ∧
    (analyzeDataset
      ⟨ratSqrt, fun _ => some (50, 50),
        fun _ => some ⟨100, 100, [⟨0, 0, 10, 10, 0, "A"⟩]⟩, ⟨[], []⟩⟩
      ⟨"d", "d", ["A"],
        [⟨"i1", "f1.jpg", some "B", true, some "train"⟩]⟩).total_annotations = 1 ∧
    ¬(analyzeDataset
      ⟨ratSqrt, fun _ => some (50, 50),
        fun _ => some ⟨100, 100, [⟨0, 0, 10, 10, 0, "A"⟩]⟩, ⟨[], []⟩⟩
      ⟨"d", "d", ["A"],
        [⟨"i1", "f1.jpg", some "B", true, some "train"⟩]⟩).total_annotations = 0 := by
  refine ⟨?_, ?_, ?_⟩
  · rw [analyze_mism]
    simp +decide [scanOf, annotatedOf, scanImages, scanImage, processBox, initSt, oobPred,
      nonposPred, iclsOf, incr]
  · rw [analyze_total_annotations]
    simp +decide [scanOf, annotatedOf, scanImages, scanImage, processBox, initSt, oobPred,
      nonposPred, iclsOf, incr]
  · rw [analyze_total_annotations]
    simp +decide [scanOf, annotatedOf, scanImages, scanImage, processBox, initSt, oobPred,
      nonposPred, iclsOf, incr]

/-- Witness for the amended C3 at a concrete mismatched image. -/
theorem C3_mismatch_not_excluded_witness :
    "f1.jpg" ∈ (analyzeDataset
      ⟨ratSqrt, fun _ => some (50, 50),
        fun _ => some ⟨100, 100, [⟨0, 0, 10, 10, 0, "A"⟩]⟩, ⟨[], []⟩⟩
      ⟨"d", "d", ["A"],
        [⟨"i1", "f1.jpg", some "B", true, some "train"⟩]⟩).label_mismatches ∧
    (analyzeDataset
      ⟨ratSqrt, fun _ => some (50, 50),
        fun _ => some ⟨100, 100, [⟨0, 0, 10, 10, 0, "A"⟩]⟩, ⟨[], []⟩⟩
      ⟨"d", "d", ["A"],
        [⟨"i1", "f1.jpg", some "B", true, some "train"⟩]⟩).total_annotations =
      (analyzeDataset
        ⟨ratSqrt, fun _ => some (50, 50),
          fun _ => some ⟨100, 100, [⟨0, 0, 10, 10, 0, "A"⟩]⟩, ⟨[], []⟩⟩
        ⟨"d", "d", ["A"], []⟩).total_annotations +
        ((AnnRec.mk 100 100 [⟨0, 0, 10, 10, 0, "A"⟩]).boxes.filter
          (fun b => decide (validBox 100 100 b))).length :=
  C3_mismatch_not_excluded
    ⟨ratSqrt, fun _ => some (50, 50),
      fun _ => some ⟨100, 100, [⟨0, 0, 10, 10, 0, "A"⟩]⟩, ⟨[], []⟩⟩
    "d" "d" ["A"] [] [] ⟨"i1", "f1.jpg", some "B", true, some "train"⟩
    ⟨100, 100, [⟨0, 0, 10, 10, 0, "A"⟩]⟩ "B" (50, 50)
    rfl rfl rfl rfl (Or.inl (by decide))

/-! ## C4: missing files land in `label_mismatches`, excluded from statistics -/

theorem survivingTriples_skip (env : Env) (id nm : String) (cls : List String)
    (l1 l2 : List Img) (img : Img)
    (hann : img.annotated = true) (hT : imgTriples env img = []) :
    survivingTriples env ⟨id, nm, cls, l1 ++ img :: l2⟩ =
      survivingTriples env ⟨id, nm, cls, l1 ++ l2⟩ := by
  unfold survivingTriples
  simp [List.filter_append, hann, hT]

/-- C4 (amended): an annotated image with an annotation record but a
missing file is recorded in `label_mismatches` — NOT in
`corrupt_images` — and is excluded from all further statistics:
removing the image changes none of `corrupt_images`,
`total_annotations`, `class_frequency`, the size/aspect distributions
or `duplicate_images`. -/
theorem C4_missing_file (env : Env) (id nm : String) (cls : List String)
    (l1 l2 : List Img) (img : Img) (ann : AnnRec)
    (hann : img.annotated = true) (hl : env.anns img.id = some ann)
    (hf : img.file = none) :
    img.filename ∈ (analyzeDataset env ⟨id, nm, cls, l1 ++ img :: l2⟩).label_mismatches ∧
    (analyzeDataset env ⟨id, nm, cls, l1 ++ img :: l2⟩).corrupt_images =
      (analyzeDataset env ⟨id, nm, cls, l1 ++ l2⟩).corrupt_images ∧
    (analyzeDataset env ⟨id, nm, cls, l1 ++ img :: l2⟩).total_annotations =
      (analyzeDataset env ⟨id, nm, cls, l1 ++ l2⟩).total_annotations ∧
    (analyzeDataset env ⟨id, nm, cls, l1 ++ img :: l2⟩).class_frequency =
      (analyzeDataset env ⟨id, nm, cls, l1 ++ l2⟩).class_frequency ∧
    (analyzeDataset env ⟨id, nm, cls, l1 ++ img :: l2⟩).object_size_distribution =
      (analyzeDataset env ⟨id, nm, cls, l1 ++ l2⟩).object_size_distribution ∧
    (analyzeDataset env ⟨id, nm, cls, l1 ++ img :: l2⟩).aspect_ratio_distribution =
      (analyzeDataset env ⟨id, nm, cls, l1 ++ l2⟩).aspect_ratio_distribution ∧
    (analyzeDataset env ⟨id, nm, cls, l1 ++ img :: l2⟩).duplicate_images =
      (analyzeDataset env ⟨id, nm, cls, l1 ++ l2⟩).duplicate_images := by
  have hannotated : annotatedOf ⟨id, nm, cls, l1 ++ img :: l2⟩ =
      l1.filter (fun i => i.annotated) ++ img :: l2.filter (fun i => i.annotated) := by
    simp [annotatedOf, List.filter_append, hann]
  have hannotated' : annotatedOf ⟨id, nm, cls, l1 ++ l2⟩ =
      l1.filter (fun i => i.annotated) ++ l2.filter (fun i => i.annotated) := by
    simp [annotatedOf, List.filter_append]
  have hc : imgContrib env cls img = { emptyC with mism := [img.filename] } := by
    simp [imgContrib, hl, hf]
  have hT : imgTriples env img = [] := by simp [imgTriples, hl, hf]
  have htrip := survivingTriples_skip env id nm cls l1 l2 img hann hT
  refine ⟨?_, ?_, ?_, ?_, ?_, ?_, ?_⟩
  · rw [analyze_mism, scanOf_mism_flatten, hannotated]
    simp [hc]
  · rw [analyze_corrupt, analyze_corrupt, scanOf_corrupt_flatten, scanOf_corrupt_flatten,
      hannotated, hannotated']
    simp [hc, emptyC]
  · rw [analyze_total_annotations, analyze_total_annotations, scanOf_anns_triples,
      scanOf_anns_triples, htrip]
  · rw [analyze_class_frequency, analyze_class_frequency, scanOf_counts_triples,
      scanOf_counts_triples, htrip]
  · rw [analyze_size_dist, analyze_size_dist, scanOf_sizes_triples, scanOf_sizes_triples,
      htrip]
  · rw [analyze_aspect_dist, analyze_aspect_dist, scanOf_aspects_triples,
      scanOf_aspects_triples, htrip]
  · rw [analyze_dups, analyze_dups]
    unfold dupsOf
    rw [scanOf_hashes_foldl, scanOf_hashes_foldl, hannotated, hannotated']
    simp [hc, emptyC]

/-- Concrete refutation of C4 as stated: one annotated image with an
annotation but no file on disk ends up in `label_mismatches`, while
`corrupt_images` stays empty. -/
theorem C4_counterexample :
    (analyzeDataset
      ⟨ratSqrt, fun _ => some (10, 10), fun _ => some ⟨10, 10, [⟨0, 0, 5, 5, 0, "A"⟩]⟩,
        ⟨[], []⟩⟩
      ⟨"d", "d", ["A"],
        [⟨"i1", "f1.jpg", none, true, some "train"⟩]⟩).corrupt_images = [] ∧
    (analyzeDataset
      ⟨ratSqrt, fun _ => some (10, 10), fun _ => some ⟨10, 10, [⟨0, 0, 5, 5, 0, "A"⟩]⟩,
        ⟨[], []⟩⟩
      ⟨"d", "d", ["A"],
        [⟨"i1", "f1.jpg", none, true, some "train"⟩]⟩).label_mismatches = ["f1.jpg"] := by
  constructor
  · rw [analyze_corrupt]
    simp +decide [scanOf, annotatedOf, scanImages, scanImage, initSt]
  · rw [analyze_mism]
    simp +decide [scanOf, annotatedOf, scanImages, scanImage, initSt]

/-- Witness for the amended C4 at a concrete missing-file image. -/
theorem C4_missing_file_witness :
    "f1.jpg" ∈ (analyzeDataset
      ⟨ratSqrt, fun _ => some (10, 10), fun _ => some ⟨10, 10, [⟨0, 0, 5, 5, 0, "A"⟩]⟩,
        ⟨[], []⟩⟩
      ⟨"d", "d", ["A"],
        [⟨"i1", "f1.jpg", none, true, some "train"⟩]⟩).label_mismatches ∧
    (analyzeDataset
      ⟨ratSqrt, fun _ => some (10, 10), fun _ => some ⟨10, 10, [⟨0, 0, 5, 5, 0, "A"⟩]⟩,
        ⟨[], []⟩⟩
      ⟨"d", "d", ["A"],
        [⟨"i1", "f1.jpg", none, true, some "train"⟩]⟩).corrupt_images =
      (analyzeDataset
        ⟨ratSqrt, fun _ => some (10, 10), fun _ => some ⟨10, 10, [⟨0, 0, 5, 5, 0, "A"⟩]⟩,
          ⟨[], []⟩⟩
        ⟨"d", "d", ["A"], []⟩).corrupt_images :=
  ⟨(C4_missing_file _ "d" "d" ["A"] [] [] _ ⟨10, 10, [⟨0, 0, 5, 5, 0, "A"⟩]⟩
      rfl rfl rfl).1,
   (C4_missing_file _ "d" "d" ["A"] [] [] _ ⟨10, 10, [⟨0, 0, 5, 5, 0, "A"⟩]⟩
      rfl rfl rfl).2.1⟩

/-! ## C10: null annotation lookups -/

/-- Every filename stored anywhere in a hash table. -/
def allFiles (h : List (Bytes × List String)) : List String :=
  (h.map (fun e => e.2)).flatten

theorem mem_allFiles_addHash (h : List (Bytes × List String)) (b : Bytes) (f x : String)
    (hx : x ∈ allFiles (addHash h b f)) : x ∈ allFiles h ∨ x = f := by
  induction h with
  | nil =>
    simp [addHash, allFiles] at hx
    exact Or.inr hx
  | cons e rest ih =>
    obtain ⟨a, fs⟩ := e
    by_cases h1 : a = b
    · simp only [addHash, if_pos h1, allFiles, List.map_cons, List.flatten_cons] at hx
      rcases List.mem_append.1 hx with h2 | h2
      · rcases List.mem_append.1 h2 with h3 | h3
        · exact Or.inl (by simp [allFiles]; exact Or.inl h3)
        · simp at h3
          exact Or.inr h3
      · exact Or.inl (by simp [allFiles]; right; exact (by simpa [allFiles] using h2))
    · simp only [addHash, if_neg h1, allFiles, List.map_cons, List.flatten_cons] at hx
      rcases List.mem_append.1 hx with h2 | h2
      · exact Or.inl (by simp [allFiles]; exact Or.inl h2)
      · rcases ih (by simpa [allFiles] using h2) with h3 | h3
        · exact Or.inl (by simp [allFiles]; right; exact (by simpa [allFiles] using h3))
        · exact Or.inr h3

theorem mem_allFiles_foldl (ins : List (Bytes × String)) (h0 : List (Bytes × List String))
    (x : String)
    (hx : x ∈ allFiles (ins.foldl (fun h p => addHash h p.1 p.2) h0)) :
    x ∈ allFiles h0 ∨ ∃ p ∈ ins, p.2 = x := by
  induction ins generalizing h0 with
  | nil => exact Or.inl hx
  | cons p rest ih =>
    rcases ih (addHash h0 p.1 p.2) hx with h1 | h2
    · rcases mem_allFiles_addHash h0 p.1 p.2 x h1 with ha | hb
      · exact Or.inl ha
      · exact Or.inr ⟨p, List.mem_cons_self _ _, hb.symm⟩
    · obtain ⟨q, hq, hqx⟩ := h2
      exact Or.inr ⟨q, List.mem_cons_of_mem _ hq, hqx⟩

theorem entry_mem_allFiles (h : List (Bytes × List String)) (e : Bytes × List String)
    (he : e ∈ h) (x : String) (hx : x ∈ e.2) : x ∈ allFiles h :=
  List.mem_flatten.2 ⟨e.2, List.mem_map.2 ⟨e, he, rfl⟩, hx⟩

theorem imgContrib_hashIns_filename (env : Env) (cls : List String) (i : Img)
    (p : Bytes × String) (hp : p ∈ (imgContrib env cls i).hashIns) : p.2 = i.filename := by
  rcases hA : env.anns i.id with _ | ann
  · simp [imgContrib, hA, emptyC] at hp
  rcases hF : i.file with _ | bs
  · simp [imgContrib, hA, hF, emptyC] at hp
  rcases hD : env.decode bs with _ | wh
  · simp [imgContrib, hA, hF, hD, emptyC] at hp
  · rw [imgContrib_hashIns_some env cls i ann bs wh hA hF hD] at hp
    simp at hp
    rw [hp]

theorem any_congr_mem {α : Type} (l : List α) (p q : α → Bool)
    (h : ∀ a ∈ l, p a = q a) : l.any p = l.any q := by
  induction l with
  | nil => rfl
  | cons a rest ih =>
    simp only [List.any_cons, h a (List.mem_cons_self _ _),
      ih (fun b hb => h b (List.mem_cons_of_mem _ hb))]

/-- C10 (amended): an annotated image whose annotation lookup returns
null is appended to `empty_annotations` and skipped entirely: removing
it changes none of `corrupt_images`, `duplicate_images`,
`class_frequency`, `total_annotations` or the size/aspect
distributions, and — provided no OTHER image of the dataset shares its
filename — it cannot affect `data_leakage_detected` either. -/
theorem C10_null_ann_skip (env : Env) (id nm : String) (cls : List String)
    (l1 l2 : List Img) (img : Img)
    (hann : img.annotated = true) (hnull : env.anns img.id = none)
    (hfn : ∀ i ∈ l1 ++ l2, i.filename ≠ img.filename) :
    img.filename ∈ (analyzeDataset env ⟨id, nm, cls, l1 ++ img :: l2⟩).empty_annotations ∧
    (analyzeDataset env ⟨id, nm, cls, l1 ++ img :: l2⟩).corrupt_images =
      (analyzeDataset env ⟨id, nm, cls, l1 ++ l2⟩).corrupt_images ∧
    (analyzeDataset env ⟨id, nm, cls, l1 ++ img :: l2⟩).duplicate_images =
      (analyzeDataset env ⟨id, nm, cls, l1 ++ l2⟩).duplicate_images ∧
    (analyzeDataset env ⟨id, nm, cls, l1 ++ img :: l2⟩).class_frequency =
      (analyzeDataset env ⟨id, nm, cls, l1 ++ l2⟩).class_frequency ∧
    (analyzeDataset env ⟨id, nm, cls, l1 ++ img :: l2⟩).total_annotations =
      (analyzeDataset env ⟨id, nm, cls, l1 ++ l2⟩).total_annotations ∧
    (analyzeDataset env ⟨id, nm, cls, l1 ++ img :: l2⟩).object_size_distribution =
      (analyzeDataset env ⟨id, nm, cls, l1 ++ l2⟩).object_size_distribution ∧
    (analyzeDataset env ⟨id, nm, cls, l1 ++ img :: l2⟩).aspect_ratio_distribution =
      (analyzeDataset env ⟨id, nm, cls, l1 ++ l2⟩).aspect_ratio_distribution ∧
    (analyzeDataset env ⟨id, nm, cls, l1 ++ img :: l2⟩).data_leakage_detected =
      (analyzeDataset env ⟨id, nm, cls, l1 ++ l2⟩).data_leakage_detected := by
  have hannotated : annotatedOf ⟨id, nm, cls, l1 ++ img :: l2⟩ =
      l1.filter (fun i => i.annotated) ++ img :: l2.filter (fun i => i.annotated) := by
    simp [annotatedOf, List.filter_append, hann]
  have hannotated' : annotatedOf ⟨id, nm, cls, l1 ++ l2⟩ =
      l1.filter (fun i => i.annotated) ++ l2.filter (fun i => i.annotated) := by
    simp [annotatedOf, List.filter_append]
  have hc : imgContrib env cls img = { emptyC with empty := [img.filename] } := by
    simp [imgContrib, hnull]
  have hT : imgTriples env img = [] := by simp [imgTriples, hnull]
  have htrip := survivingTriples_skip env id nm cls l1 l2 img hann hT
  have hhash : (scanOf env ⟨id, nm, cls, l1 ++ img :: l2⟩).hashes =
      (scanOf env ⟨id, nm, cls, l1 ++ l2⟩).hashes := by
    rw [scanOf_hashes_foldl, scanOf_hashes_foldl, hannotated, hannotated']
    simp [hc, emptyC]
  refine ⟨?_, ?_, ?_, ?_, ?_, ?_, ?_, ?_⟩
  · rw [analyze_empty, scanOf_empty_flatten, hannotated]
    simp [hc]
  · rw [analyze_corrupt, analyze_corrupt, scanOf_corrupt_flatten, scanOf_corrupt_flatten,
      hannotated, hannotated']
    simp [hc, emptyC]
  · rw [analyze_dups, analyze_dups]
    unfold dupsOf
    rw [hhash]
  · rw [analyze_class_frequency, analyze_class_frequency, scanOf_counts_triples,
      scanOf_counts_triples, htrip]
  · rw [analyze_total_annotations, analyze_total_annotations, scanOf_anns_triples,
      scanOf_anns_triples, htrip]
  · rw [analyze_size_dist, analyze_size_dist, scanOf_sizes_triples, scanOf_sizes_triples,
      htrip]
  · rw [analyze_aspect_dist, analyze_aspect_dist, scanOf_aspects_triples,
      scanOf_aspects_triples, htrip]
  · rw [analyze_leak, analyze_leak]
    have hne_full : annotatedOf ⟨id, nm, cls, l1 ++ img :: l2⟩ ≠ [] := by
      rw [hannotated]
      simp
    by_cases hrem : annotatedOf ⟨id, nm, cls, l1 ++ l2⟩ = []
    · have h12 := List.append_eq_nil.mp (hannotated' ▸ hrem)
      have hfull_ann : annotatedOf ⟨id, nm, cls, l1 ++ img :: l2⟩ = [img] := by
        rw [hannotated, h12.1, h12.2]
        rfl
      have hhash0 : (scanOf env ⟨id, nm, cls, l1 ++ img :: l2⟩).hashes = [] := by
        rw [scanOf_hashes_foldl, hfull_ann]
        simp [hc, emptyC]
      rw [analyzeSplits_leak _ _ hne_full, hhash0]
      simp [analyzeSplits, hrem]
    · rw [analyzeSplits_leak _ _ hne_full, analyzeSplits_leak _ _ hrem, hhash]
      apply any_congr_mem
      intro e he
      have hnotmem : ¬(img.filename ∈ e.2) := by
        intro hmem
        have hall := entry_mem_allFiles _ e he img.filename hmem
        rw [scanOf_hashes_foldl] at hall
        rcases mem_allFiles_foldl _ _ _ hall with h1 | h2
        · simp [allFiles] at h1
        · obtain ⟨p, hp, hpx⟩ := h2
          rw [List.mem_flatten] at hp
          obtain ⟨l, hl, hpl⟩ := hp
          rw [List.mem_map] at hl
          obtain ⟨i, hi, rfl⟩ := hl
          have hif := imgContrib_hashIns_filename env _ i p hpl
          have hil12 : i ∈ l1 ++ l2 := by
            rw [hannotated'] at hi
            rcases List.mem_append.1 hi with h3 | h3
            · exact List.mem_append.2 (Or.inl (List.mem_of_mem_filter h3))
            · exact List.mem_append.2 (Or.inr (List.mem_of_mem_filter h3))
          exact hfn i hil12 (by rw [← hif, hpx])
      have hsp : splitsFor (annotatedOf ⟨id, nm, cls, l1 ++ img :: l2⟩) e.2 =
          splitsFor (annotatedOf ⟨id, nm, cls, l1 ++ l2⟩) e.2 := by
        rw [hannotated, hannotated']
        simp [splitsFor, List.filter_append, hnotmem]
      rw [hsp]

/-- Concrete refutation of C10's parenthetical "can never trigger
leakage detection": a null-annotation image X with split `val` that
SHARES ITS FILENAME with a hashed duplicate image flips
`data_leakage_detected` from false to true, because `_analyze_splits`
matches images to hash entries by filename. -/
theorem C10_counterexample :
    (⟨ratSqrt, fun _ => some (10, 10),
        fun i => if i = "x" then none else some ⟨10, 10, []⟩,
        ⟨[], []⟩⟩ : Env).anns "x" = none ∧
    (analyzeDataset
      ⟨ratSqrt, fun _ => some (10, 10),
        fun i => if i = "x" then none else some ⟨10, 10, []⟩, ⟨[], []⟩⟩
      ⟨"d", "d", ["A"],
        [⟨"a1", "x.jpg", some "B1", true, some "train"⟩,
         ⟨"a2", "y.jpg", some "B1", true, some "train"⟩,
         ⟨"x", "x.jpg", some "B2", true, some "val"⟩]⟩).data_leakage_detected = true ∧
    (analyzeDataset
      ⟨ratSqrt, fun _ => some (10, 10),
        fun i => if i = "x" then none else some ⟨10, 10, []⟩, ⟨[], []⟩⟩
      ⟨"d", "d", ["A"],
        [⟨"a1", "x.jpg", some "B1", true, some "train"⟩,
         ⟨"a2", "y.jpg", some "B1", true, some "train"⟩]⟩).data_leakage_detected = false := by
  refine ⟨rfl, ?_, ?_⟩
  · rw [analyze_leak]
    simp +decide [analyzeSplits, splitsFor, splitOrNone, scanOf, annotatedOf, scanImages,
      scanImage, initSt, addHash, incr]
  · rw [analyze_leak]
    simp +decide [analyzeSplits, splitsFor, splitOrNone, scanOf, annotatedOf, scanImages,
      scanImage, initSt, addHash, incr]

/-- Witness for the amended C10 at a concrete null-annotation image
whose filename is unique in the dataset. -/
theorem C10_null_ann_skip_witness :
    "z.jpg" ∈ (analyzeDataset
      ⟨ratSqrt, fun _ => some (10, 10),
        fun i => if i = "x" then none else some ⟨10, 10, []⟩, ⟨[], []⟩⟩
      ⟨"d", "d", ["A"],
        [⟨"a1", "x.jpg", some "B1", true, some "train"⟩,
         ⟨"x", "z.jpg", some "B2", true, some "val"⟩]⟩).empty_annotations ∧
    (analyzeDataset
      ⟨ratSqrt, fun _ => some (10, 10),
        fun i => if i = "x" then none else some ⟨10, 10, []⟩, ⟨[], []⟩⟩
      ⟨"d", "d", ["A"],
        [⟨"a1", "x.jpg", some "B1", true, some "train"⟩,
         ⟨"x", "z.jpg", some "B2", true, some "val"⟩]⟩).data_leakage_detected =
    (analyzeDataset
      ⟨ratSqrt, fun _ => some (10, 10),
        fun i => if i = "x" then none else some ⟨10, 10, []⟩, ⟨[], []⟩⟩
      ⟨"d", "d", ["A"],
        [⟨"a1", "x.jpg", some "B1", true, some "train"⟩]⟩).data_leakage_detected :=
  ⟨(C10_null_ann_skip _ "d" "d" ["A"]
      [⟨"a1", "x.jpg", some "B1", true, some "train"⟩] []
      ⟨"x", "z.jpg", some "B2", true, some "val"⟩ rfl rfl (by decide)).1,
   (C10_null_ann_skip _ "d" "d" ["A"]
      [⟨"a1", "x.jpg", some "B1", true, some "train"⟩] []
      ⟨"x", "z.jpg", some "B2", true, some "val"⟩ rfl rfl (by decide)).2.2.2.2.2.2.2⟩
